import Mathlib

/-!
# Roxiler transactions backend: a shallow embedding of `src/index.js`

The service fetches a list of product transactions and answers five GET routes
with views derived from it.  Every route handler of `src/index.js` is embedded
as a pure function of the outcome of the remote fetch and of the query string.

Modelling conventions
* JavaScript strings are `String`; `toLowerCase` lower-cases the Latin and
  Cyrillic capital letters.
* JavaScript numbers are IEEE 754 doubles.  A price is a finite double, held as
  its exact value, a rational (`ℚ`): comparing two doubles is comparing their
  values, adding them rounds the exact sum to the nearest double (`jsAdd`), and
  printing one gives its shortest decimal (`numberToString`).  The numbers read
  by `parseInt` are integer-valued doubles, infinities or `NaN` (`JsInteger`).
* An array holds fewer than `2^32` elements.
* A plain object literal (`{}` or `{ 'January': '01', ... }`) inherits the
  properties of `Object.prototype`; property reads go through that chain.
* `await fetchTransactions()` either yields the dataset or throws; a throw
  inside `try` is answered by the `catch` branch of the handler.
-/

namespace Roxiler

/-! ## JavaScript built-ins used by the handlers -/

/-- The lower-case mapping of one character, for the capital letters of the Basic
Latin, Latin-1 Supplement, Latin Extended-A and Cyrillic blocks; `U+0130` maps to
two characters.  Every other character is left as it is. -/
def lowerCaseOf (c : Char) : List Char :=
  let n := c.toNat
  if 65 ≤ n ∧ n ≤ 90 then [Char.ofNat (n + 32)]
  else if 192 ≤ n ∧ n ≤ 222 ∧ n ≠ 215 then [Char.ofNat (n + 32)]
  else if n = 304 then ['i', Char.ofNat 775]
  else if n = 376 then [Char.ofNat 255]
  else if (256 ≤ n ∧ n ≤ 303 ∨ 306 ≤ n ∧ n ≤ 311 ∨ 330 ≤ n ∧ n ≤ 375) ∧ n % 2 = 0 then
    [Char.ofNat (n + 1)]
  else if (313 ≤ n ∧ n ≤ 328 ∨ 377 ≤ n ∧ n ≤ 382) ∧ n % 2 = 1 then [Char.ofNat (n + 1)]
  else if 1024 ≤ n ∧ n ≤ 1039 then [Char.ofNat (n + 80)]
  else if 1040 ≤ n ∧ n ≤ 1071 then [Char.ofNat (n + 32)]
  else [c]

/-- `String.prototype.toLowerCase`, character by character with `lowerCaseOf`.
A text with a capital letter of another script (Greek, Armenian, ...) is outside
the model. -/
def toLowerCase (s : String) : String :=
  String.mk (s.data.flatMap lowerCaseOf)

/-- Does `needle` occur in `hay` as a contiguous run of characters? -/
def includesChars (hay needle : List Char) : Bool :=
  match hay with
  | [] => needle.isEmpty
  | c :: rest => needle.isPrefixOf (c :: rest) || includesChars rest needle

/-- `String.prototype.includes`. -/
def includes (s search : String) : Bool :=
  includesChars s.data search.data

/-- `String.prototype.padStart(targetLength, padString)` for a one-character pad. -/
def padStart (s : String) (targetLength : Nat) (pad : Char) : String :=
  String.mk (List.replicate (targetLength - s.data.length) pad ++ s.data)

/-- Decimal digits of a natural number, most significant first (`0` gives `[0]`). -/
def digitsAux : Nat → Nat → List Char → List Char
  | 0, _, acc => acc
  | fuel + 1, n, acc =>
    let acc1 := Char.ofNat (48 + n % 10) :: acc
    if n / 10 = 0 then acc1 else digitsAux fuel (n / 10) acc1

/-- Decimal rendering of a natural number, as `Number.prototype.toString` prints an integer. -/
def natToString (n : Nat) : String :=
  String.mk (digitsAux (n + 1) n [])

/-- Names of the properties every plain object inherits from `Object.prototype`. -/
def objectPrototypeKeys : List String :=
  ["constructor", "__defineGetter__", "__defineSetter__", "hasOwnProperty",
   "__lookupGetter__", "__lookupSetter__", "isPrototypeOf", "propertyIsEnumerable",
   "toString", "valueOf", "__proto__", "toLocaleString"]

/-- Result of reading a property `obj[key]` of a plain object whose own values have type `α`. -/
inductive Lookup (α : Type) where
  /-- The key is an own property with this value. -/
  | own (value : α)
  /-- The key is not an own property but names a member of `Object.prototype`
  (a function, or the prototype object itself for `__proto__`). -/
  | inherited (key : String)
  /-- The key is found nowhere on the chain: `undefined`. -/
  | undefined
  deriving DecidableEq, Repr

/-- Property read `obj[key]` on a plain object given by its own entries. -/
def lookup {α : Type} (entries : List (String × α)) (key : String) : Lookup α :=
  match entries.find? (fun e => e.1 == key) with
  | some e => Lookup.own e.2
  | none => if key ∈ objectPrototypeKeys then Lookup.inherited key else Lookup.undefined

/-! ## Month-name normalisation (`getMonthNumber`, lines 18-26) -/

/-- The object literal `monthMap`. -/
def monthMap : List (String × String) :=
  [("January", "01"), ("February", "02"), ("March", "03"),
   ("April", "04"), ("May", "05"), ("June", "06"),
   ("July", "07"), ("August", "08"), ("September", "09"),
   ("October", "10"), ("November", "11"), ("December", "12")]

/-- `getMonthNumber(monthName)`: the property read `monthMap[monthName]`. -/
def getMonthNumber (monthName : String) : Lookup String :=
  lookup monthMap monthName

/-- JavaScript truthiness of the value returned by `getMonthNumber`: a string is
truthy unless empty, a function or object is truthy, `undefined` is falsy. -/
def Lookup.truthy : Lookup String → Bool
  | Lookup.own s => !s.isEmpty
  | Lookup.inherited _ => true
  | Lookup.undefined => false

/-! ## More built-ins: number formatting, `parseInt`, `Array.prototype.slice` -/

/-- Least `d` (searched from `d` upwards, `fuel` candidates) such that `den` divides `10^d`:
the number of fractional digits of a decimal with denominator `den`. -/
def fractionDigits : Nat → Nat → Nat → Option Nat
  | 0, _, _ => none
  | fuel + 1, den, d =>
    if 10 ^ d % den = 0 then some d else fractionDigits fuel den (d + 1)

/-- Remove the trailing decimal zeros of `n`, counting them in `z`. -/
def stripZeros : Nat → Nat → Nat → Nat × Nat
  | 0, n, z => (n, z)
  | fuel + 1, n, z =>
    if n ≠ 0 ∧ n % 10 = 0 then stripZeros fuel (n / 10) (z + 1) else (n, z)

/-- Step 7 onwards of `Number::toString`: the digits of `s` and the exponent `n`
(`x = 0.d₁d₂…d_k × 10^n`) laid out in plain or exponential notation. -/
def formatDecimal (digits : List Char) (n : Int) : String :=
  let k : Int := digits.length
  if -6 < n ∧ n ≤ 21 then
    if k ≤ n then String.mk (digits ++ List.replicate (n - k).toNat '0')
    else if 0 < n then String.mk (digits.take n.toNat ++ '.' :: digits.drop n.toNat)
    else String.mk ('0' :: '.' :: (List.replicate (-n).toNat '0' ++ digits))
  else
    let e := n - 1
    let sign := if 0 ≤ e then '+' else '-'
    let exponent := (natToString e.natAbs).data
    match digits with
    | [] => String.mk ('e' :: sign :: exponent)
    | [c] => String.mk (c :: 'e' :: sign :: exponent)
    | c :: rest => String.mk (c :: '.' :: (rest ++ 'e' :: sign :: exponent))

/-- The layout by `Number::toString` of the positive finite decimal `num / den`
(`"NaN"` when `num / den` is no finite decimal, which no caller passes). -/
def positiveToString (num den : Nat) : String :=
  match fractionDigits den den 0 with
  | none => "NaN"
  | some d =>
    let scaled := num * (10 ^ d / den)
    let sz := stripZeros scaled scaled 0
    let digits := (natToString sz.1).data
    formatDecimal digits ((digits.length : Int) + sz.2 - d)

/-- White space and line terminators skipped by `parseInt` (by code point). -/
def isStrWhiteSpace (c : Char) : Bool :=
  let n := c.toNat
  n == 9 || n == 10 || n == 11 || n == 12 || n == 13 || n == 32 || n == 160 ||
  n == 5760 || (8192 ≤ n && n ≤ 8202) || n == 8232 || n == 8233 || n == 8239 ||
  n == 8287 || n == 12288 || n == 65279

/-- The integer that `parseInt(string, 10)` reads from a text: leading white space
is skipped, one sign is read, then the longest run of decimal digits; `none` when
no digit can be read. -/
def readInteger (s : String) : Option Int :=
  let trimmed := s.data.dropWhile isStrWhiteSpace
  let signed : Bool × List Char :=
    match trimmed with
    | '-' :: r => (true, r)
    | '+' :: r => (false, r)
    | r => (false, r)
  let digits := signed.2.takeWhile Char.isDigit
  if digits.isEmpty then none
  else
    let magnitude : Nat := digits.foldl (fun acc c => 10 * acc + (c.toNat - 48)) 0
    some (if signed.1 then -(magnitude : Int) else (magnitude : Int))

/-! ### Numbers are doubles

Every JavaScript number is an IEEE 754 double.  An integer of magnitude up to `2^53`
is a double; a larger one is rounded to 53 significant binary digits (to nearest,
ties to even), and a magnitude of `2^1024 - 2^970` or more becomes an infinity.
Negative zero is not told apart from zero: no handler divides by it or prints it. -/

/-- Number of binary digits of `n` (`0` has none), counted in at most `fuel` halvings. -/
def bitLengthAux : Nat → Nat → Nat
  | 0, _ => 0
  | fuel + 1, n => if n = 0 then 0 else bitLengthAux fuel (n / 2) + 1

/-- Number of binary digits of `n` (`0` has none). -/
def bitLength (n : Nat) : Nat :=
  bitLengthAux n n

/-- The integer nearest to `a / b`, a tie going to the even one. -/
def divRoundEven (a b : Nat) : Nat :=
  if 2 * (a % b) < b then a / b
  else if b < 2 * (a % b) then a / b + 1
  else if a / b % 2 = 0 then a / b
  else a / b + 1

/-- The least magnitude that rounds to an infinity, `2^1024 - 2^970`. -/
def overflowThreshold : Nat :=
  (2 ^ 256) ^ 4 - (2 ^ 194) ^ 5

/-- An integer-valued JavaScript number, an infinity or `NaN`: the numbers that
`parseInt` returns and that sums, differences and products of such numbers give. -/
inductive JsInteger where
  | nan
  | posInf
  | negInf
  | finite (value : Int)
  deriving DecidableEq, Repr

instance (n : Nat) : OfNat JsInteger n := ⟨JsInteger.finite (n : Int)⟩

/-- The double nearest to the natural number `a`; `none` when it is an infinity. -/
def roundMagnitude (a : Nat) : Option Nat :=
  if a ≤ 2 ^ 53 then some a
  else if overflowThreshold ≤ a then none
  else some (divRoundEven a (1 <<< (bitLength a - 53)) <<< (bitLength a - 53))

/-- The double nearest to an integer. -/
def roundInteger (n : Int) : JsInteger :=
  match roundMagnitude n.natAbs with
  | some m => JsInteger.finite (if n < 0 then -(m : Int) else (m : Int))
  | none => if n < 0 then JsInteger.negInf else JsInteger.posInf

/-- `parseInt(string, 10)`: the integer read from the text, as a number; `NaN` when
no digit can be read. -/
def parseInt (s : String) : JsInteger :=
  match readInteger s with
  | some n => roundInteger n
  | none => JsInteger.nan

/-- The expression `value || fallback` for a number: `NaN` and `0` are falsy. -/
def orDefault (value fallback : JsInteger) : JsInteger :=
  match value with
  | JsInteger.nan => fallback
  | JsInteger.finite n => if n = 0 then fallback else JsInteger.finite n
  | JsInteger.posInf => JsInteger.posInf
  | JsInteger.negInf => JsInteger.negInf

/-- The difference `a - b` of two numbers. -/
def integerSub : JsInteger → JsInteger → JsInteger
  | JsInteger.nan, _ => JsInteger.nan
  | _, JsInteger.nan => JsInteger.nan
  | JsInteger.posInf, JsInteger.posInf => JsInteger.nan
  | JsInteger.negInf, JsInteger.negInf => JsInteger.nan
  | JsInteger.posInf, _ => JsInteger.posInf
  | JsInteger.negInf, _ => JsInteger.negInf
  | JsInteger.finite _, JsInteger.posInf => JsInteger.negInf
  | JsInteger.finite _, JsInteger.negInf => JsInteger.posInf
  | JsInteger.finite a, JsInteger.finite b => roundInteger (a - b)

/-- The sign rule for a product with an infinity: `0 * Infinity` is `NaN`. -/
def infinityTimes (positive : Bool) (factor : Int) : JsInteger :=
  if factor = 0 then JsInteger.nan
  else if (0 < factor) = positive then JsInteger.posInf
  else JsInteger.negInf

/-- The product `a * b` of two numbers. -/
def integerMul : JsInteger → JsInteger → JsInteger
  | JsInteger.nan, _ => JsInteger.nan
  | _, JsInteger.nan => JsInteger.nan
  | JsInteger.posInf, JsInteger.posInf => JsInteger.posInf
  | JsInteger.posInf, JsInteger.negInf => JsInteger.negInf
  | JsInteger.negInf, JsInteger.posInf => JsInteger.negInf
  | JsInteger.negInf, JsInteger.negInf => JsInteger.posInf
  | JsInteger.posInf, JsInteger.finite b => infinityTimes true b
  | JsInteger.negInf, JsInteger.finite b => infinityTimes false b
  | JsInteger.finite a, JsInteger.posInf => infinityTimes true a
  | JsInteger.finite a, JsInteger.negInf => infinityTimes false a
  | JsInteger.finite a, JsInteger.finite b => roundInteger (a * b)

/-- The sum `a + b` of two numbers. -/
def integerAdd : JsInteger → JsInteger → JsInteger
  | JsInteger.nan, _ => JsInteger.nan
  | _, JsInteger.nan => JsInteger.nan
  | JsInteger.posInf, JsInteger.negInf => JsInteger.nan
  | JsInteger.negInf, JsInteger.posInf => JsInteger.nan
  | JsInteger.posInf, _ => JsInteger.posInf
  | JsInteger.negInf, _ => JsInteger.negInf
  | JsInteger.finite _, JsInteger.posInf => JsInteger.posInf
  | JsInteger.finite _, JsInteger.negInf => JsInteger.negInf
  | JsInteger.finite a, JsInteger.finite b => roundInteger (a + b)

/-! ### Prices are doubles

A price is a finite double, given by its exact value, a rational.  The sum of two
doubles is the double nearest to their exact sum. -/

/-- A JavaScript number that need not be an integer: a finite double given by its
exact value, an infinity or `NaN`. -/
inductive JsNumber where
  | nan
  | posInf
  | negInf
  | finite (value : ℚ)
  deriving DecidableEq, Repr

instance (n : Nat) : OfNat JsNumber n := ⟨JsNumber.finite (n : ℚ)⟩

/-- The double nearest to the positive rational `a / b` (round to nearest, ties to
even, subnormal below `2^-1022`); `none` when it is too large for a finite double. -/
def roundPositive (a b : Nat) : Option ℚ :=
  if overflowThreshold * b ≤ a then none else
  let e0 : Int := (bitLength a : Int) - (bitLength b : Int)
  let atLeast : Bool :=
    if 0 ≤ e0 then decide (b <<< e0.toNat ≤ a) else decide (b ≤ a <<< (-e0).toNat)
  let e : Int := if atLeast then e0 else e0 - 1
  let s : Int := max e (-1022) - 52
  if 0 ≤ s then
    some ((divRoundEven a (b <<< s.toNat) <<< s.toNat : Nat) : ℚ)
  else
    some (mkRat (divRoundEven (a <<< (-s).toNat) b) (1 <<< (-s).toNat))

/-- The double nearest to a rational (with overflow to an infinity).  An integer of
magnitude up to `2^53` is a double and is left as it is. -/
def roundToDouble (q : ℚ) : JsNumber :=
  if q.den = 1 ∧ q.num.natAbs ≤ 2 ^ 53 then JsNumber.finite q
  else
    match roundPositive q.num.natAbs q.den with
    | some v => JsNumber.finite (if q.num < 0 then mkRat (-v.num) v.den else v)
    | none => if q.num < 0 then JsNumber.negInf else JsNumber.posInf

/-- The exact sum of two rationals, computed on numerators and denominators. -/
def exactSum (a b : ℚ) : ℚ :=
  mkRat (a.num * b.den + b.num * a.den) (a.den * b.den)

/-- The addition `a + b` of two numbers. -/
def jsAdd : JsNumber → JsNumber → JsNumber
  | JsNumber.nan, _ => JsNumber.nan
  | _, JsNumber.nan => JsNumber.nan
  | JsNumber.posInf, JsNumber.negInf => JsNumber.nan
  | JsNumber.negInf, JsNumber.posInf => JsNumber.nan
  | JsNumber.posInf, _ => JsNumber.posInf
  | _, JsNumber.posInf => JsNumber.posInf
  | JsNumber.negInf, _ => JsNumber.negInf
  | _, JsNumber.negInf => JsNumber.negInf
  | JsNumber.finite a, JsNumber.finite b => roundToDouble (exactSum a b)

/-- Least `m`, searched from `m` upwards among `fuel` candidates, with
`b ≤ a * 10^m`. -/
def scaleUp : Nat → Nat → Nat → Nat → Nat
  | 0, _, _, m => m
  | fuel + 1, a, b, m => if b ≤ a * 10 ^ m then m else scaleUp fuel a b (m + 1)

/-- The integer `n` with `10^(n-1) ≤ a / b < 10^n`, for positive `a` and `b`. -/
def decimalExponent (a b : Nat) : Int :=
  if b ≤ a then ((natToString (a / b)).data.length : Int)
  else 1 - (scaleUp 400 a b 1 : Int)

/-- The decimal `s × 10^e`. -/
def decimalValue (s : Nat) (e : Int) : ℚ :=
  if 0 ≤ e then ((s * 10 ^ e.toNat : Nat) : ℚ) else mkRat s (10 ^ (-e).toNat)

/-- Step 5 of `Number::toString` for the positive double `a / b` with decimal
exponent `n`: the decimal with the fewest significant digits `k` (tried from `k`
upwards, `fuel` candidates) whose Number value is the double, and among those of
`k` digits the one nearest to it. -/
def shortestDecimal : Nat → Nat → Nat → Int → Nat → ℚ
  | 0, a, b, _, _ => mkRat a b
  | fuel + 1, a, b, n, k =>
    let e : Int := n - k
    let top : Nat := if 0 ≤ e then a else a * 10 ^ (-e).toNat
    let bottom : Nat := if 0 ≤ e then b * 10 ^ e.toNat else b
    let low : Nat := top / bottom
    let lowIsDouble : Bool :=
      decide (roundToDouble (decimalValue low e) = JsNumber.finite (mkRat a b))
    let highIsDouble : Bool :=
      decide (roundToDouble (decimalValue (low + 1) e) = JsNumber.finite (mkRat a b))
    if lowIsDouble && highIsDouble then decimalValue (divRoundEven top bottom) e
    else if lowIsDouble then decimalValue low e
    else if highIsDouble then decimalValue (low + 1) e
    else shortestDecimal fuel a b n (k + 1)

/-- `Number::toString` of a positive finite double `x`: its shortest decimal, laid out. -/
def doubleToString (x : ℚ) : String :=
  let shortest := shortestDecimal 17 x.num.natAbs x.den (decimalExponent x.num.natAbs x.den) 1
  positiveToString shortest.num.natAbs shortest.den

/-- `Number.prototype.toString()` of a price: the shortest decimal that denotes the
double, in plain or exponent layout.  A rational that is not itself a double is
first rounded to one, as a JSON number is when the document is read. -/
def numberToString (x : ℚ) : String :=
  match roundToDouble x with
  | JsNumber.nan => "NaN"
  | JsNumber.posInf => "Infinity"
  | JsNumber.negInf => "-Infinity"
  | JsNumber.finite v =>
    if v.num = 0 then "0"
    else if v.num < 0 then String.mk ('-' :: (doubleToString v).data)
    else doubleToString v

/-- An index argument of `slice` made relative to an array of length `len`:
a negative index counts from the end, and the result is clamped to `0..len`. -/
def relativeIndex (len : Nat) (i : Int) : Nat :=
  if i < 0 then ((len : Int) + i).toNat else min i.toNat len

/-- `Array.prototype.slice(start, end)` with integer arguments. -/
def slice {α : Type} (xs : List α) (start end_ : Int) : List α :=
  let k := relativeIndex xs.length start
  let final := relativeIndex xs.length end_
  (xs.drop k).take (final - k)

/-- An index argument of `slice` that is a number, made relative to an array of
length `len`: `NaN` is read as 0, an infinity is clamped like any other index. -/
def sliceIndex (len : Nat) : JsInteger → Nat
  | JsInteger.nan => 0
  | JsInteger.posInf => len
  | JsInteger.negInf => 0
  | JsInteger.finite i => relativeIndex len i

/-- `Array.prototype.slice(start, end)` with arguments that are numbers. -/
def sliceNumbers {α : Type} (xs : List α) (start end_ : JsInteger) : List α :=
  let k := sliceIndex xs.length start
  let final := sliceIndex xs.length end_
  (xs.drop k).take (final - k)

/-! ## Data model and HTTP plumbing -/

/-- The value of `new Date(transaction.dateOfSale)` as the server reads it: an
invalid date, or the calendar fields of the date in the server's local time. -/
inductive JsDate where
  | invalid
  | valid (year : Int) (monthIndex : Fin 12) (day : Nat)
  deriving DecidableEq, Repr

/-- `Date.prototype.getMonth()`: the zero-based month, `none` being `NaN`. -/
def JsDate.getMonth : JsDate → Option Nat
  | JsDate.invalid => none
  | JsDate.valid _ monthIndex _ => some monthIndex.val

/-- One record of the remote dataset.  The price is a finite double, held as its
exact value. -/
structure Transaction where
  title : String
  description : String
  price : ℚ
  dateOfSale : JsDate
  sold : Bool
  category : String
  deriving DecidableEq, Repr

/-- What a handler sends: `res.json(body)` (status 200), or
`res.status(status).json({ error })`. -/
inductive Response (α : Type) where
  | ok (body : α)
  | error (status : Nat) (error : String)
  deriving DecidableEq, Repr

/-- A handled request: the response, and how many times `fetchTransactions` was called. -/
structure Outcome (α : Type) where
  response : Response α
  fetches : Nat
  deriving DecidableEq, Repr

/-- The parsed query string `req.query`; an absent parameter is `none`. -/
structure Query where
  search : Option String
  page : Option String
  per_page : Option String
  month : Option String
  deriving DecidableEq, Repr

/-- `(date.getMonth() + 1).toString().padStart(2, '0')`; `NaN + 1` prints as `"NaN"`. -/
def transactionMonthOf (transactionDate : JsDate) : String :=
  padStart
    (match transactionDate.getMonth with
     | some m => natToString (m + 1)
     | none => "NaN")
    2 '0'

/-- The comparison `transactionMonth === monthNumber`: a string is strictly equal
only to the same string, never to a function, an object or `undefined`. -/
def strictEquals (transactionMonth : String) (monthNumber : Lookup String) : Bool :=
  match monthNumber with
  | Lookup.own code => transactionMonth == code
  | Lookup.inherited _ => false
  | Lookup.undefined => false

/-! ## Dataset retrieval (`fetchTransactions`, lines 12-15) -/

/-- What the remote source does when the dataset is requested. -/
inductive RemoteReply where
  /-- A 2xx reply whose body is the list of records. -/
  | dataset (transactions : List Transaction)
  /-- The request fails (network error, non-2xx status): `axios.get` throws an
  error that carries the cause. -/
  | failure (cause : String)
  /-- A 2xx reply whose body is no array: its first use (`transactions.filter`)
  throws a `TypeError`. -/
  | malformed (body : String)
  deriving DecidableEq, Repr

/-- The dataset a handler works on after `await fetchTransactions()`; `none` when
the `try` block throws instead.  The `catch (error)` branch of every handler
answers without reading `error`. -/
def fetchTransactions : RemoteReply → Option (List Transaction)
  | RemoteReply.dataset transactions => some transactions
  | RemoteReply.failure _ => none
  | RemoteReply.malformed _ => none

/-! ## `GET /transactions` (lines 29-65) -/

/-- Body of the `/transactions` response (`res.json` writes an infinite `page` or
`per_page` as `null`). -/
structure TransactionsBody where
  page : JsInteger
  per_page : JsInteger
  total : Nat
  transactions : List Transaction
  deriving DecidableEq, Repr

/-- The constant `perPage` (line 34): `parseInt(per_page, 10) || 10`, where an
absent `per_page` is the default `10`. -/
def perPageOf (query : Query) : JsInteger :=
  orDefault (parseInt (query.per_page.getD "10")) 10

/-- The constant `currentPage` (line 35): `parseInt(page, 10) || 1`, where an
absent `page` is the default `1`. -/
def currentPageOf (query : Query) : JsInteger :=
  orDefault (parseInt (query.page.getD "1")) 1

/-- The predicate of the search filter (lines 41-47). -/
def matchesSearch (search : String) (transaction : Transaction) : Bool :=
  includes (toLowerCase transaction.title) (toLowerCase search) ||
  includes (toLowerCase transaction.description) (toLowerCase search) ||
  includes (numberToString transaction.price) search

/-- Handler of `GET /transactions`. -/
def getTransactions (remote : Option (List Transaction)) (query : Query) :
    Outcome TransactionsBody :=
  let search := query.search.getD ""
  let perPage := perPageOf query
  let currentPage := currentPageOf query
  match remote with
  | none => Outcome.mk (Response.error 500 "Failed to fetch transactions") 1
  | some transactions =>
    let filteredTransactions := transactions.filter (matchesSearch search)
    let start := integerMul (integerSub currentPage 1) perPage
    let end_ := integerAdd start perPage
    let paginatedTransactions := sliceNumbers filteredTransactions start end_
    Outcome.mk
      (Response.ok
        { page := currentPage
          per_page := perPage
          total := filteredTransactions.length
          transactions := paginatedTransactions })
      1

/-! ## `GET /statistics` (lines 68-105) -/

/-- Body of the `/statistics` response (`res.json` writes an infinite or `NaN`
`totalSaleAmount` as `null`). -/
structure StatisticsBody where
  month : String
  totalSaleAmount : JsNumber
  totalSoldItems : Nat
  totalNotSoldItems : Nat
  deriving DecidableEq, Repr

/-- Handler of `GET /statistics`. -/
def getStatistics (remote : Option (List Transaction)) (query : Query) :
    Outcome StatisticsBody :=
  let month := query.month.getD ""
  let monthNumber := getMonthNumber month
  if !monthNumber.truthy then
    Outcome.mk (Response.error 400 "Invalid month name. Use full month name.") 0
  else
    match remote with
    | none => Outcome.mk (Response.error 500 "Failed to fetch statistics") 1
    | some transactions =>
      let filteredTransactions := transactions.filter (fun transaction =>
        let transactionDate := transaction.dateOfSale
        let transactionMonth := transactionMonthOf transactionDate
        strictEquals transactionMonth monthNumber)
      let totalSaleAmount := filteredTransactions.foldl (fun sum transaction =>
        if transaction.sold then jsAdd sum (JsNumber.finite transaction.price) else sum) 0
      let totalSoldItems := (filteredTransactions.filter (fun transaction => transaction.sold)).length
      let totalNotSoldItems :=
        (filteredTransactions.filter (fun transaction => !transaction.sold)).length
      Outcome.mk
        (Response.ok
          { month := month
            totalSaleAmount := totalSaleAmount
            totalSoldItems := totalSoldItems
            totalNotSoldItems := totalNotSoldItems })
        1

/-! ## `GET /bar-chart` (lines 108-154) -/

/-- One element of the array `ranges`; `max = none` is `Infinity`. -/
structure PriceRange where
  range : String
  min : ℚ
  max : Option ℚ
  deriving DecidableEq, Repr

/-- The comparison `price <= max`, where `max` may be `Infinity`. -/
def lessEqMax (price : ℚ) : Option ℚ → Bool
  | some bound => decide (price ≤ bound)
  | none => true

/-- One element of the bar-chart response. -/
structure BarEntry where
  range : String
  count : Nat
  deriving DecidableEq, Repr

/-- The array `ranges` of the `/bar-chart` handler (lines 129-140). -/
def barChartRanges : List PriceRange :=
  [ { range := "0 - 100", min := 0, max := some 100 },
    { range := "101 - 200", min := 101, max := some 200 },
    { range := "201 - 300", min := 201, max := some 300 },
    { range := "301 - 400", min := 301, max := some 400 },
    { range := "401 - 500", min := 401, max := some 500 },
    { range := "501 - 600", min := 501, max := some 600 },
    { range := "601 - 700", min := 601, max := some 700 },
    { range := "701 - 800", min := 701, max := some 800 },
    { range := "801 - 900", min := 801, max := some 900 },
    { range := "901 - above", min := 901, max := none } ]

/-- Handler of `GET /bar-chart`. -/
def getBarChart (remote : Option (List Transaction)) (query : Query) :
    Outcome (List BarEntry) :=
  let month := query.month.getD ""
  let monthNumber := getMonthNumber month
  if !monthNumber.truthy then
    Outcome.mk (Response.error 400 "Invalid month name. Use full month name.") 0
  else
    match remote with
    | none => Outcome.mk (Response.error 500 "Failed to fetch bar chart data") 1
    | some transactions =>
      let filteredTransactions := transactions.filter (fun transaction =>
        let transactionDate := transaction.dateOfSale
        let transactionMonth := transactionMonthOf transactionDate
        strictEquals transactionMonth monthNumber)
      let ranges := barChartRanges
      let rangeCounts := ranges.map (fun r =>
        let count := (filteredTransactions.filter (fun transaction =>
          decide (transaction.price ≥ r.min) && lessEqMax transaction.price r.max)).length
        ({ range := r.range, count := count } : BarEntry))
      Outcome.mk (Response.ok rangeCounts) 1

/-! ## `GET /pie-chart` (lines 157-197) -/

/-- The accumulator `acc` of the category count: the own properties of a plain
object in insertion order; a value `none` is `NaN`. -/
abbrev CategoryCounts := List (String × Option Nat)

/-- Truthiness of `acc[category]`: `0`, `NaN` and `undefined` are falsy, a positive
count is truthy, and so is an inherited function or object. -/
def countTruthy : Lookup (Option Nat) → Bool
  | Lookup.own (some n) => n != 0
  | Lookup.own none => false
  | Lookup.inherited _ => true
  | Lookup.undefined => false

/-- The number that `acc[category]` converts to under `++`: a function, an object
and `undefined` all convert to `NaN`. -/
def countToNumber : Lookup (Option Nat) → Option Nat
  | Lookup.own value => value
  | Lookup.inherited _ => none
  | Lookup.undefined => none

/-- The assignment `acc[key] = value` of a number.  Writing `__proto__` runs the
inherited setter, which ignores a number; any other key becomes (or stays) an own
property, a new one being added last. -/
def assign (acc : CategoryCounts) (key : String) (value : Option Nat) : CategoryCounts :=
  if key = "__proto__" then acc
  else if acc.any (fun e => e.1 == key) then
    acc.map (fun e => if e.1 == key then (e.1, value) else e)
  else acc ++ [(key, value)]

/-- The reducer of `categoryCounts` (lines 178-185, repeated at 248-255). -/
def countCategory (acc : CategoryCounts) (transaction : Transaction) : CategoryCounts :=
  let category := transaction.category
  let acc1 := if !countTruthy (lookup acc category) then assign acc category (some 0) else acc
  assign acc1 category ((countToNumber (lookup acc1 category)).map (fun n => n + 1))

/-- The array index a property key denotes, if it is the canonical decimal form of
an integer below `2^32 - 1`. -/
def arrayIndex (key : String) : Option Nat :=
  if key.data.isEmpty || !key.data.all Char.isDigit then none
  else
    let n := key.data.foldl (fun acc c => 10 * acc + (c.toNat - 48)) 0
    if natToString n = key ∧ n < 4294967295 then some n else none

/-- `Object.keys(obj)`: the array-index keys in ascending numeric order, then the
other keys in insertion order. -/
def objectKeys (acc : CategoryCounts) : List String :=
  ((acc.filterMap (fun e => arrayIndex e.1)).insertionSort (fun a b => a ≤ b)).map natToString ++
    (acc.filter (fun e => (arrayIndex e.1).isNone)).map (fun e => e.1)

/-- One element of the pie-chart response; a count `none` is `NaN`, which
`res.json` writes as `null`. -/
structure PieEntry where
  category : String
  count : Option Nat
  deriving DecidableEq, Repr

/-- Handler of `GET /pie-chart`. -/
def getPieChart (remote : Option (List Transaction)) (query : Query) :
    Outcome (List PieEntry) :=
  let month := query.month.getD ""
  let monthNumber := getMonthNumber month
  if !monthNumber.truthy then
    Outcome.mk (Response.error 400 "Invalid month name. Use full month name.") 0
  else
    match remote with
    | none => Outcome.mk (Response.error 500 "Failed to fetch pie chart data") 1
    | some transactions =>
      let filteredTransactions := transactions.filter (fun transaction =>
        let transactionDate := transaction.dateOfSale
        let transactionMonth := transactionMonthOf transactionDate
        strictEquals transactionMonth monthNumber)
      let categoryCounts := filteredTransactions.foldl countCategory []
      let pieChartData := (objectKeys categoryCounts).map (fun category =>
        ({ category := category
           count := countToNumber (lookup categoryCounts category) } : PieEntry))
      Outcome.mk (Response.ok pieChartData) 1

/-! ## `GET /combined-data` (lines 200-274) -/

/-- The parsed query string of `/combined-data`.  This handler uses `page` and
`per_page` in arithmetic without `parseInt`, so the fields hold the number each
query value coerces to: `some (some n)` an integer, `some none` a value that
coerces to `NaN`, `none` an absent parameter (which takes the default 1 or 10).
Fractional and infinite values are outside the model. -/
structure CombinedQuery where
  month : Option String
  search : Option String
  page : Option (Option Int)
  per_page : Option (Option Int)
  deriving DecidableEq, Repr

/-- The subtraction `a - b` of two numbers, either of which may be `NaN`. -/
def numSub (a b : Option Int) : Option Int :=
  match a, b with
  | some x, some y => some (x - y)
  | _, _ => none

/-- The product `a * b` of two numbers, either of which may be `NaN`. -/
def numMul (a b : Option Int) : Option Int :=
  match a, b with
  | some x, some y => some (x * y)
  | _, _ => none

/-- The integer `slice` reads from an index argument: `NaN` is read as `0`. -/
def toIntegerOrInfinity (value : Option Int) : Int :=
  value.getD 0

/-- The object `statistics` of the `/combined-data` response. -/
structure CombinedStatistics where
  totalSaleAmount : JsNumber
  totalSoldItems : Nat
  totalNotSoldItems : Nat
  deriving DecidableEq, Repr

/-- Body of the `/combined-data` response. -/
structure CombinedBody where
  transactions : List Transaction
  statistics : CombinedStatistics
  barChartData : List BarEntry
  pieChartData : List PieEntry
  deriving DecidableEq, Repr

/-- The array `ranges` of the `/combined-data` handler (lines 228-239). -/
def combinedRanges : List PriceRange :=
  [ { range := "0 - 100", min := 0, max := some 100 },
    { range := "101 - 200", min := 101, max := some 200 },
    { range := "201 - 300", min := 201, max := some 300 },
    { range := "301 - 400", min := 301, max := some 400 },
    { range := "401 - 500", min := 401, max := some 500 },
    { range := "501 - 600", min := 501, max := some 600 },
    { range := "601 - 700", min := 601, max := some 700 },
    { range := "701 - 800", min := 701, max := some 800 },
    { range := "801 - 900", min := 801, max := some 900 },
    { range := "901 - above", min := 901, max := none } ]

/-- Handler of `GET /combined-data`. -/
def getCombinedData (remote : Option (List Transaction)) (query : CombinedQuery) :
    Outcome CombinedBody :=
  let month := query.month.getD ""
  let page := query.page.getD (some 1)
  let per_page := query.per_page.getD (some 10)
  let monthNumber := getMonthNumber month
  if !monthNumber.truthy then
    Outcome.mk (Response.error 400 "Invalid month name. Use full month name.") 0
  else
    match remote with
    | none => Outcome.mk (Response.error 500 "Failed to fetch combined data") 1
    | some transactions =>
      let filteredTransactions := transactions.filter (fun transaction =>
        let transactionDate := transaction.dateOfSale
        let transactionMonth := transactionMonthOf transactionDate
        strictEquals transactionMonth monthNumber)
      let totalSaleAmount := filteredTransactions.foldl (fun sum transaction =>
        if transaction.sold then jsAdd sum (JsNumber.finite transaction.price) else sum) 0
      let totalSoldItems := (filteredTransactions.filter (fun transaction => transaction.sold)).length
      let totalNotSoldItems :=
        (filteredTransactions.filter (fun transaction => !transaction.sold)).length
      let ranges := combinedRanges
      let rangeCounts := ranges.map (fun r =>
        let count := (filteredTransactions.filter (fun transaction =>
          decide (transaction.price ≥ r.min) && lessEqMax transaction.price r.max)).length
        ({ range := r.range, count := count } : BarEntry))
      let categoryCounts := filteredTransactions.foldl countCategory []
      let pieChartData := (objectKeys categoryCounts).map (fun category =>
        ({ category := category
           count := countToNumber (lookup categoryCounts category) } : PieEntry))
      Outcome.mk
        (Response.ok
          { transactions :=
              slice filteredTransactions
                (toIntegerOrInfinity (numMul (numSub page (some 1)) per_page))
                (toIntegerOrInfinity (numMul page per_page))
            statistics :=
              { totalSaleAmount := totalSaleAmount
                totalSoldItems := totalSoldItems
                totalNotSoldItems := totalNotSoldItems }
            barChartData := rangeCounts
            pieChartData := pieChartData })
        1

/-! ## Vocabulary of the specification -/

/-- The twelve full English month names, in calendar order. -/
def monthNames : List String :=
  ["January", "February", "March", "April", "May", "June",
   "July", "August", "September", "October", "November", "December"]

/-- The name of the month with zero-based index `k`. -/
def monthName (k : Fin 12) : String :=
  monthNames.get (Fin.cast (by decide) k)

/-- The two-digit, zero-padded decimal code of a calendar position (1 to 12). -/
def twoDigitCode (position : Nat) : String :=
  String.mk [Char.ofNat (48 + position / 10), Char.ofNat (48 + position % 10)]

/-- The sale date of a record falls in the month with zero-based index `k`. -/
def inMonth (k : Fin 12) (t : Transaction) : Bool :=
  match t.dateOfSale with
  | JsDate.invalid => false
  | JsDate.valid _ monthIndex _ => monthIndex == k

/-- The records of a dataset whose sale date falls in month `k`. -/
def recordsOfMonth (k : Fin 12) (dataset : List Transaction) : List Transaction :=
  dataset.filter (inMonth k)

/-- A query that selects a month and nothing else. -/
def monthQuery (month : String) : Query :=
  { search := none, page := none, per_page := none, month := some month }

/-- The price of a record lies in a range: `price >= min && price <= max`. -/
def inRange (r : PriceRange) (t : Transaction) : Bool :=
  decide (t.price ≥ r.min) && lessEqMax t.price r.max

/-- The histogram of a list of records over a list of ranges. -/
def countByRange (ranges : List PriceRange) (records : List Transaction) : List BarEntry :=
  ranges.map (fun r => { range := r.range, count := (records.filter (inRange r)).length })

/-- The category counts of a list of records, as the pie chart lists them. -/
def pieChartOf (records : List Transaction) : List PieEntry :=
  (objectKeys (records.foldl countCategory [])).map (fun category =>
    { category := category
      count := countToNumber (lookup (records.foldl countCategory []) category) })

/-- The sum of the counts of a bar chart. -/
def barTotal (entries : List BarEntry) : Nat :=
  (entries.map (fun e => e.count)).sum

/-- The query of `/combined-data` that selects a month and nothing else. -/
def combinedMonthQuery (month : String) : CombinedQuery :=
  { month := some month, search := none, page := none, per_page := none }

/-- The accumulator `acc` counts the records `seen`: no key occurs twice, every
entry holds the count of the records of its category, which is positive, and every
category seen has an entry. -/
def Counted (acc : CategoryCounts) (seen : List Transaction) : Prop :=
  (acc.map Prod.fst).Nodup ∧
  (∀ e ∈ acc, 0 < seen.countP (fun t => t.category == e.1) ∧
    e.2 = some (seen.countP (fun t => t.category == e.1))) ∧
  (∀ t ∈ seen, t.category ∈ acc.map Prod.fst)

/-- A number that is `+Infinity` or finite and at least `2^53`: as an index of
`slice` it lies beyond the end of every array. -/
def JsInteger.Huge (v : JsInteger) : Prop :=
  v = JsInteger.posInf ∨ ∃ m : Int, v = JsInteger.finite m ∧ 2 ^ 53 ≤ m

/-- The decimal numeral of `10^309`, a 1 followed by 309 zeros: the least power of
ten that is too large for a finite double. -/
def hugeNumeral : String :=
  String.mk ('1' :: List.replicate 309 '0')

/-- The prices added one by one from left to right, starting from 0, each
intermediate sum being rounded to a double: what a loop `sum = sum + price` computes. -/
def addPrices (prices : List ℚ) : JsNumber :=
  prices.foldl (fun sum price => jsAdd sum (JsNumber.finite price)) 0

/-- The price lies in the span of the ten ranges in the words of a reader: it is
zero or more and, for no `k` from 1 to 9, strictly between `100 k` and `100 k + 1`. -/
def inSomeRange (price : ℚ) : Bool :=
  decide (0 ≤ price) &&
    (List.range 9).all (fun i =>
      !(decide (((100 * (i + 1) : ℕ) : ℚ) < price) &&
        decide (price < ((100 * (i + 1) + 1 : ℕ) : ℚ))))

/-! ## Sample records -/

/-- A record sold in March 2022 (month index 2) with the given price and category. -/
def marchRecord (title : String) (price : ℚ) (category : String) : Transaction :=
  { title := title
    description := "HD TV"
    price := price
    dateOfSale := JsDate.valid 2022 (2 : Fin 12) 14
    sold := true
    category := category }

/-- The counts of a bar chart in which no record is counted. -/
def emptyBarChart : List BarEntry :=
  [ { range := "0 - 100", count := 0 }, { range := "101 - 200", count := 0 },
    { range := "201 - 300", count := 0 }, { range := "301 - 400", count := 0 },
    { range := "401 - 500", count := 0 }, { range := "501 - 600", count := 0 },
    { range := "601 - 700", count := 0 }, { range := "701 - 800", count := 0 },
    { range := "801 - 900", count := 0 }, { range := "901 - above", count := 0 } ]

/-- Five records of March 2022, titled "A" to "E". -/
def fiveRecords : List Transaction :=
  [marchRecord "A" 10 "toys", marchRecord "B" 20 "toys", marchRecord "C" 30 "toys",
   marchRecord "D" 40 "toys", marchRecord "E" 50 "toys"]

/-- Five records of March 2022 whose prices sit on the borders of the price ranges. -/
def borderRecords : List Transaction :=
  [marchRecord "A" 0 "toys", marchRecord "B" 100 "toys", marchRecord "C" 101 "toys",
   marchRecord "D" 900 "toys", marchRecord "E" 901 "toys"]

/-- Three records sold in March 2022, priced `10^16`, 1 and 1. -/
def largeFirst : List Transaction :=
  [marchRecord "A" 10000000000000000 "toys", marchRecord "B" 1 "toys",
   marchRecord "C" 1 "toys"]

/-- The records of `largeFirst`, the one priced `10^16` coming last. -/
def largeLast : List Transaction :=
  [marchRecord "B" 1 "toys", marchRecord "C" 1 "toys",
   marchRecord "A" 10000000000000000 "toys"]

/-- Two records sold in March 2022 whose prices are the doubles written `0.1` and
`0.2` (the doubles nearest to 1/10 and 2/10). -/
def tenthRecords : List Transaction :=
  [marchRecord "A" (mkRat 3602879701896397 36028797018963968) "toys",
   marchRecord "B" (mkRat 3602879701896397 18014398509481984) "toys"]

/-- Four records of March 2022 priced 0, 100, the double written `329.85` and
1000000.5. -/
def fractionalRecords : List Transaction :=
  [marchRecord "A" 0 "toys", marchRecord "B" 100 "toys",
   marchRecord "C" (mkRat 2901391283375309 8796093022208) "toys",
   marchRecord "D" (mkRat 2000001 2) "toys"]

/-- The page of a list in the words of the specification: the records from offset
`(page - 1) * per_page`, `per_page` of them (drop, then take). -/
def pageOf {α : Type} (xs : List α) (page per_page : Int) : List α :=
  (xs.drop ((page - 1) * per_page).toNat).take per_page.toNat

/-- The number of pages that `total` records fill, `per_page` to a page (rounded up). -/
def availablePages (total : Nat) (per_page : Int) : Int :=
  ((total : Int) + per_page - 1) / per_page

/-- The dataset of the worked example: three sold records priced 50, 150 and 950
and one unsold record priced 300 in March 2022, and a sold record of April 2021. -/
def workedExample : List Transaction :=
  [ marchRecord "A" 50 "toys",
    marchRecord "B" 150 "toys",
    { title := "C", description := "HD TV", price := 300,
      dateOfSale := JsDate.valid 2022 (2 : Fin 12) 20, sold := false, category := "books" },
    { title := "D", description := "HD TV", price := 500,
      dateOfSale := JsDate.valid 2021 (3 : Fin 12) 2, sold := true, category := "books" },
    marchRecord "E" 950 "toys" ]

/-- The `transactions` field of a `/transactions` response (no record for an error). -/
def transactionsOf : Response TransactionsBody → List Transaction
  | Response.ok body => body.transactions
  | Response.error _ _ => []

/-- The number of pages that `total` records fill, `per_page` to a page, as a count. -/
def pageCount (total per_page : Nat) : Nat :=
  (total + per_page - 1) / per_page

/-- The request `/transactions?search=…&page=p&per_page=n`, the numbers written in decimal. -/
def pageQuery (search : Option String) (p n : Nat) : Query :=
  { search := search, page := some (natToString p), per_page := some (natToString n),
    month := none }

/-- The bucket of a whole price in the words of the specification: bucket 0 if the
price is at most 100, otherwise bucket `min(9, floor((price - 1) / 100))`. -/
def bucketIndex (price : Nat) : Nat :=
  if price ≤ 100 then 0 else min 9 ((price - 1) / 100)

/-- The part of a list from index `a` up to (not including) index `b`, in the
words of the specification: the elements whose index `i` has `a ≤ i < b`, in order. -/
def segment {α : Type} (xs : List α) (a b : Int) : List α :=
  (xs.take b.toNat).drop a.toNat

/-! ## Lemmas shared by the month-scoped routes -/

/-- Every month name is accepted by the validation `if (!monthNumber)`. -/
theorem truthy_getMonthNumber (k : Fin 12) :
    (getMonthNumber (monthName k)).truthy = true := by
  revert k; decide

/-- For a valid month, the test of the month filter holds exactly for the dates of that month. -/
theorem strictEquals_monthName (k : Fin 12) (t : Transaction) :
    strictEquals (transactionMonthOf t.dateOfSale) (getMonthNumber (monthName k)) = inMonth k t := by
  unfold inMonth
  cases t.dateOfSale with
  | invalid => revert k; decide
  | valid year monthIndex day =>
    show strictEquals (transactionMonthOf (JsDate.valid 0 monthIndex 0))
        (getMonthNumber (monthName k)) = (monthIndex == k)
    revert k monthIndex; decide

/-- For a valid month, the month filter keeps exactly the records of that month. -/
theorem monthFilter_eq (k : Fin 12) (dataset : List Transaction) :
    dataset.filter (fun transaction =>
        strictEquals (transactionMonthOf transaction.dateOfSale) (getMonthNumber (monthName k)))
      = recordsOfMonth k dataset := by
  unfold recordsOfMonth
  congr 1
  funext t
  exact strictEquals_monthName k t

/-- The `reduce` that adds the price of the sold records adds, from left to right,
the prices of the sold records. -/
theorem foldl_sold_eq_addPrices (records : List Transaction) (init : JsNumber) :
    records.foldl (fun sum transaction =>
        if transaction.sold then jsAdd sum (JsNumber.finite transaction.price) else sum) init
      = ((records.filter (fun t => t.sold)).map (fun t => t.price)).foldl
          (fun sum price => jsAdd sum (JsNumber.finite price)) init := by
  induction records generalizing init with
  | nil => rfl
  | cons t rest ih =>
    cases hs : t.sold <;> simp [List.foldl_cons, List.filter_cons, hs, ih]

/-- The sum computed on numerators and denominators is the sum. -/
theorem exactSum_eq (a b : ℚ) : exactSum a b = a + b := by
  unfold exactSum
  rw [Rat.add_def, Rat.normalize_eq_mkRat]

/-- Adding two natural numbers whose sum is at most `2^53` is exact. -/
theorem jsAdd_natCast (a b : ℕ) (hsum : a + b ≤ 2 ^ 53) :
    jsAdd (JsNumber.finite (a : ℚ)) (JsNumber.finite (b : ℚ))
      = JsNumber.finite ((a + b : ℕ) : ℚ) := by
  show roundToDouble (exactSum (a : ℚ) (b : ℚ)) = _
  rw [exactSum_eq, ← Nat.cast_add]
  unfold roundToDouble
  rw [if_pos]
  simp only [Rat.den_natCast, Rat.num_natCast, Int.natAbs_ofNat, true_and]
  exact hsum

/-- Natural numbers whose sum is at most `2^53` are added exactly, in any order. -/
theorem foldl_jsAdd_natCast (prices : List ℚ) (init : ℕ)
    (hwhole : ∀ x ∈ prices, ∃ n : ℕ, x = n) (hsum : (init : ℚ) + prices.sum ≤ 2 ^ 53) :
    prices.foldl (fun sum price => jsAdd sum (JsNumber.finite price)) (JsNumber.finite (init : ℚ))
      = JsNumber.finite ((init : ℚ) + prices.sum) := by
  induction prices generalizing init with
  | nil => simp
  | cons x rest ih =>
    obtain ⟨n, rfl⟩ := hwhole x (List.mem_cons_self _ _)
    have hrest : ∀ y ∈ rest, ∃ m : ℕ, y = m := fun y hy => hwhole y (List.mem_cons_of_mem _ hy)
    have hnonneg : 0 ≤ rest.sum := by
      apply List.sum_nonneg
      intro y hy
      obtain ⟨m, rfl⟩ := hrest y hy
      exact Nat.cast_nonneg m
    rw [List.sum_cons] at hsum
    have hfirst : init + n ≤ 2 ^ 53 := by
      have : ((init + n : ℕ) : ℚ) ≤ 2 ^ 53 := by
        push_cast
        linarith
      exact_mod_cast this
    rw [List.foldl_cons, jsAdd_natCast init n hfirst, ih (init + n) hrest
      (by push_cast; linarith), List.sum_cons]
    push_cast
    rw [add_assoc]

/-- Whole-number prices whose sum is at most `2^53` add up to their sum. -/
theorem addPrices_whole (prices : List ℚ) (hwhole : ∀ x ∈ prices, ∃ n : ℕ, x = n)
    (hsum : prices.sum ≤ 2 ^ 53) :
    addPrices prices = JsNumber.finite prices.sum := by
  have h := foldl_jsAdd_natCast prices 0 hwhole (by simpa using hsum)
  simpa [addPrices] using h

/-- What `/statistics` answers for a valid month and a dataset that could be fetched. -/
theorem getStatistics_valid (dataset : List Transaction) (k : Fin 12)
    (search page per_page : Option String) :
    getStatistics (some dataset) (Query.mk search page per_page (some (monthName k)))
      = Outcome.mk
          (Response.ok
            { month := monthName k
              totalSaleAmount :=
                addPrices
                  (((recordsOfMonth k dataset).filter (fun t => t.sold)).map (fun t => t.price))
              totalSoldItems := ((recordsOfMonth k dataset).filter (fun t => t.sold)).length
              totalNotSoldItems := ((recordsOfMonth k dataset).filter (fun t => !t.sold)).length })
          1 := by
  simp only [getStatistics, Option.getD_some, truthy_getMonthNumber, monthFilter_eq,
    foldl_sold_eq_addPrices, addPrices, Bool.not_true, Bool.false_eq_true, if_false]

/-- A string that is neither a month name nor a member of `Object.prototype` has no month number. -/
theorem getMonthNumber_undefined (month : String) (hname : month ∉ monthNames)
    (hproto : month ∉ objectPrototypeKeys) : getMonthNumber month = Lookup.undefined := by
  have hfind : monthMap.find? (fun e => e.1 == month) = none := by
    rw [List.find?_eq_none]
    intro e he heq
    have hmem : e.1 ∈ monthMap.map Prod.fst := List.mem_map_of_mem _ he
    have hkeys : monthMap.map Prod.fst = monthNames := by decide
    rw [hkeys] at hmem
    have hkey : e.1 = month := by simpa using heq
    exact hname (hkey ▸ hmem)
  simp [getMonthNumber, lookup, hfind, hproto]

/-- A month string without month number is answered 400 by the four month-scoped
routes, and the dataset is not fetched. -/
theorem undefined_month_rejected (month : String) (hmonth : getMonthNumber month = Lookup.undefined)
    (remote : Option (List Transaction)) (search page per_page : Option String)
    (pageNumber perPageNumber : Option (Option Int)) :
    getStatistics remote (Query.mk search page per_page (some month))
        = Outcome.mk (Response.error 400 "Invalid month name. Use full month name.") 0 ∧
    getBarChart remote (Query.mk search page per_page (some month))
        = Outcome.mk (Response.error 400 "Invalid month name. Use full month name.") 0 ∧
    getPieChart remote (Query.mk search page per_page (some month))
        = Outcome.mk (Response.error 400 "Invalid month name. Use full month name.") 0 ∧
    getCombinedData remote (CombinedQuery.mk (some month) search pageNumber perPageNumber)
        = Outcome.mk (Response.error 400 "Invalid month name. Use full month name.") 0 := by
  simp [getStatistics, getBarChart, getPieChart, getCombinedData, hmonth, Lookup.truthy]

/-- What `/bar-chart` answers for a valid month and a dataset that could be fetched. -/
theorem getBarChart_valid (dataset : List Transaction) (k : Fin 12)
    (search page per_page : Option String) :
    getBarChart (some dataset) (Query.mk search page per_page (some (monthName k)))
      = Outcome.mk (Response.ok (countByRange barChartRanges (recordsOfMonth k dataset))) 1 := by
  simp only [getBarChart, Option.getD_some, truthy_getMonthNumber, monthFilter_eq,
    Bool.not_true, Bool.false_eq_true, if_false]
  rfl

/-- What `/pie-chart` answers for a valid month and a dataset that could be fetched. -/
theorem getPieChart_valid (dataset : List Transaction) (k : Fin 12)
    (search page per_page : Option String) :
    getPieChart (some dataset) (Query.mk search page per_page (some (monthName k)))
      = Outcome.mk (Response.ok (pieChartOf (recordsOfMonth k dataset))) 1 := by
  simp only [getPieChart, Option.getD_some, truthy_getMonthNumber, monthFilter_eq,
    Bool.not_true, Bool.false_eq_true, if_false]
  rfl

/-- What `/combined-data` answers for a valid month and a dataset that could be fetched. -/
theorem getCombinedData_valid (dataset : List Transaction) (k : Fin 12)
    (search : Option String) (page per_page : Option (Option Int)) :
    getCombinedData (some dataset) (CombinedQuery.mk (some (monthName k)) search page per_page)
      = Outcome.mk
          (Response.ok
            { transactions :=
                slice (recordsOfMonth k dataset)
                  (toIntegerOrInfinity
                    (numMul (numSub (page.getD (some 1)) (some 1)) (per_page.getD (some 10))))
                  (toIntegerOrInfinity (numMul (page.getD (some 1)) (per_page.getD (some 10))))
              statistics :=
                { totalSaleAmount :=
                    addPrices (((recordsOfMonth k dataset).filter (fun t => t.sold)).map
                      (fun t => t.price))
                  totalSoldItems := ((recordsOfMonth k dataset).filter (fun t => t.sold)).length
                  totalNotSoldItems :=
                    ((recordsOfMonth k dataset).filter (fun t => !t.sold)).length }
              barChartData := countByRange combinedRanges (recordsOfMonth k dataset)
              pieChartData := pieChartOf (recordsOfMonth k dataset) })
          1 := by
  simp only [getCombinedData, Option.getD_some, truthy_getMonthNumber, monthFilter_eq,
    foldl_sold_eq_addPrices, addPrices, Bool.not_true, Bool.false_eq_true, if_false]
  rfl

/-! ## Month-name validation (C1, C2) -/

/-- C1 (evaluation at a failing input): the string `"constructor"` is none of the
twelve month names, yet none of the four month-scoped routes answers it with the
400 response: `monthMap["constructor"]` reads the inherited `Object.prototype`
member, which is truthy, so each route goes on, filters out every record and
answers 200 with empty aggregates. -/
theorem constructor_month_not_rejected :
    "constructor" ∉ monthNames ∧
    getMonthNumber "constructor" = Lookup.inherited "constructor" ∧
    (getStatistics (some [marchRecord "TV" 50 "electronics"]) (monthQuery "constructor")).response
      = Response.ok
          { month := "constructor", totalSaleAmount := 0, totalSoldItems := 0,
            totalNotSoldItems := 0 } ∧
    (getBarChart (some [marchRecord "TV" 50 "electronics"]) (monthQuery "constructor")).response
      = Response.ok emptyBarChart ∧
    (getPieChart (some [marchRecord "TV" 50 "electronics"]) (monthQuery "constructor")).response
      = Response.ok [] ∧
    (getCombinedData (some [marchRecord "TV" 50 "electronics"])
        (combinedMonthQuery "constructor")).response
      = Response.ok
          { transactions := []
            statistics := { totalSaleAmount := 0, totalSoldItems := 0, totalNotSoldItems := 0 }
            barChartData := emptyBarChart
            pieChartData := [] } := by
  decide

/-- C2: for each of the twelve month names `getMonthNumber` returns the two-digit,
zero-padded decimal code of the month's calendar position (January gives "01", ...,
December gives "12"), and distinct month names give distinct codes. -/
theorem getMonthNumber_month_names :
    (∀ k : Fin 12, getMonthNumber (monthName k) = Lookup.own (twoDigitCode (k.val + 1))) ∧
    monthNames.map getMonthNumber
      = [Lookup.own "01", Lookup.own "02", Lookup.own "03", Lookup.own "04", Lookup.own "05",
         Lookup.own "06", Lookup.own "07", Lookup.own "08", Lookup.own "09", Lookup.own "10",
         Lookup.own "11", Lookup.own "12"] ∧
    (monthNames.map getMonthNumber).Nodup := by
  decide

/-! ## Statistics (C6, C7) -/

/-- C6: for every dataset and valid month, `/statistics` answers with
`totalSoldItems` and `totalNotSoldItems` whose sum is the number of records whose
sale date falls in the month. -/
theorem statistics_sold_plus_not_sold (dataset : List Transaction) (k : Fin 12)
    (search page per_page : Option String) :
    ∃ body : StatisticsBody,
      (getStatistics (some dataset) (Query.mk search page per_page (some (monthName k)))).response
        = Response.ok body ∧
      body.totalSoldItems = ((recordsOfMonth k dataset).filter (fun t => t.sold)).length ∧
      body.totalNotSoldItems = ((recordsOfMonth k dataset).filter (fun t => !t.sold)).length ∧
      body.totalSoldItems + body.totalNotSoldItems = (recordsOfMonth k dataset).length := by
  rw [getStatistics_valid]
  exact ⟨_, rfl, rfl, rfl, (List.length_eq_length_filter_add _).symm⟩

set_option maxRecDepth 100000 in
/-- C7 (counterexample): three sold records of March priced `10^16`, 1 and 1, whose
prices sum to 10000000000000002, get totalSaleAmount 10000000000000000, and the
same records in another order get 10000000000000002; two sold records whose prices
print as "0.1" and "0.2" get a totalSaleAmount that prints as
"0.30000000000000004". -/
theorem total_sale_amount_is_rounded :
    (getStatistics (some largeFirst) (monthQuery "March")).response
      = Response.ok
          { month := "March", totalSaleAmount := 10000000000000000, totalSoldItems := 3,
            totalNotSoldItems := 0 } ∧
    (getStatistics (some largeLast) (monthQuery "March")).response
      = Response.ok
          { month := "March", totalSaleAmount := 10000000000000002, totalSoldItems := 3,
            totalNotSoldItems := 0 } ∧
    (largeFirst.map (fun t => t.price)).sum = 10000000000000002 ∧
    largeLast.Perm largeFirst ∧
    tenthRecords.map (fun t => numberToString t.price) = ["0.1", "0.2"] ∧
    (getStatistics (some tenthRecords) (monthQuery "March")).response
      = Response.ok
          { month := "March"
            totalSaleAmount := JsNumber.finite (mkRat 5404319552844596 18014398509481984)
            totalSoldItems := 2, totalNotSoldItems := 0 } ∧
    numberToString (mkRat 5404319552844596 18014398509481984) = "0.30000000000000004" := by
  refine ⟨by decide, by decide, ?_, ?_, by decide, by decide, by decide⟩
  · simp only [largeFirst, marchRecord, List.map_cons, List.map_nil, List.sum_cons, List.sum_nil]
    norm_num
  · exact (List.perm_append_comm : ([marchRecord "B" 1 "toys", marchRecord "C" 1 "toys"]
      ++ [marchRecord "A" 10000000000000000 "toys"]).Perm _)

/-- C7 (amended): for every dataset and valid month, `totalSaleAmount` of
`/statistics` is what adding to 0, one at a time in the order of the dataset and
in double arithmetic, the prices of exactly the records of the month that are sold
gives; unsold records and records of other months add nothing; the amount is 0
when the month has no sold record; and it is the exact sum of those prices when
they are whole numbers whose sum is at most `2^53`. -/
theorem statistics_total_sale_amount (dataset : List Transaction) (k : Fin 12)
    (search page per_page : Option String) :
    ∃ body : StatisticsBody,
      (getStatistics (some dataset) (Query.mk search page per_page (some (monthName k)))).response
        = Response.ok body ∧
      body.totalSaleAmount
        = addPrices ((dataset.filter (fun t => inMonth k t && t.sold)).map (fun t => t.price)) ∧
      ((dataset.filter (fun t => inMonth k t && t.sold)) = [] → body.totalSaleAmount = 0) ∧
      ((∀ t ∈ dataset.filter (fun t => inMonth k t && t.sold), ∃ n : ℕ, t.price = n) →
        ((dataset.filter (fun t => inMonth k t && t.sold)).map (fun t => t.price)).sum ≤ 2 ^ 53 →
        body.totalSaleAmount
          = JsNumber.finite
              ((dataset.filter (fun t => inMonth k t && t.sold)).map (fun t => t.price)).sum) := by
  rw [getStatistics_valid]
  have hfilter : (recordsOfMonth k dataset).filter (fun t => t.sold)
      = dataset.filter (fun t => inMonth k t && t.sold) := by
    simp only [recordsOfMonth, List.filter_filter, Bool.and_comm]
  refine ⟨_, rfl, ?_, ?_, ?_⟩
  · simp only [hfilter]
  · intro hnone
    simp only [hfilter, hnone, List.map_nil]
    rfl
  · intro hwhole hsum
    simp only [hfilter]
    apply addPrices_whole _ _ hsum
    intro x hx
    obtain ⟨t, ht, rfl⟩ := List.mem_map.mp hx
    exact hwhole t ht

/-! ## Combined endpoint (C10) -/

/-- C10: for every dataset and valid month, `/combined-data` answers with the same
aggregates as the three dedicated routes on that dataset and month: the three
statistics equal those of `/statistics`, `barChartData` is the `/bar-chart`
response and `pieChartData` is the `/pie-chart` response. -/
theorem combined_agrees_with_dedicated (dataset : List Transaction) (k : Fin 12)
    (search page per_page combinedSearch : Option String)
    (pageNumber perPageNumber : Option (Option Int)) :
    ∃ (combined : CombinedBody) (statistics : StatisticsBody) (bars : List BarEntry)
      (pie : List PieEntry),
      (getCombinedData (some dataset)
          (CombinedQuery.mk (some (monthName k)) combinedSearch pageNumber perPageNumber)).response
        = Response.ok combined ∧
      (getStatistics (some dataset) (Query.mk search page per_page (some (monthName k)))).response
        = Response.ok statistics ∧
      (getBarChart (some dataset) (Query.mk search page per_page (some (monthName k)))).response
        = Response.ok bars ∧
      (getPieChart (some dataset) (Query.mk search page per_page (some (monthName k)))).response
        = Response.ok pie ∧
      combined.statistics.totalSaleAmount = statistics.totalSaleAmount ∧
      combined.statistics.totalSoldItems = statistics.totalSoldItems ∧
      combined.statistics.totalNotSoldItems = statistics.totalNotSoldItems ∧
      combined.barChartData = bars ∧
      combined.pieChartData = pie := by
  rw [getCombinedData_valid, getStatistics_valid, getBarChart_valid, getPieChart_valid]
  exact ⟨_, _, _, _, rfl, rfl, rfl, rfl, rfl, rfl, rfl, rfl, rfl⟩

/-! ## Listing (C3, C4) -/

/-- With a start index that is not negative, `slice(start, start + count)` drops
`start` elements and takes `count`. -/
theorem slice_eq_drop_take {α : Type} (xs : List α) (start count : Int)
    (hstart : 0 ≤ start) (hcount : 0 ≤ count) :
    slice xs start (start + count) = (xs.drop start.toNat).take count.toNat := by
  have hend : (start + count).toNat = start.toNat + count.toNat := by omega
  have h1 : relativeIndex xs.length start = min start.toNat xs.length := by
    simp only [relativeIndex, if_neg (not_lt.mpr hstart)]
  have h2 : relativeIndex xs.length (start + count) = min (start.toNat + count.toNat) xs.length := by
    simp only [relativeIndex, if_neg (not_lt.mpr (add_nonneg hstart hcount)), hend]
  simp only [slice, h1, h2]
  rcases Nat.lt_or_ge start.toNat xs.length with h | h
  · have hmin : min start.toNat xs.length = start.toNat := by omega
    rw [hmin, List.take_eq_take, List.length_drop]
    omega
  · have hmin : min start.toNat xs.length = xs.length := by omega
    rw [hmin, List.drop_length, List.drop_eq_nil_of_le h]
    simp

/-- A page beyond the last one starts at or after the end of the list. -/
theorem total_le_offset (total : Nat) (page per_page : Int) (hper : 1 ≤ per_page)
    (hbeyond : availablePages total per_page < page) : (total : Int) ≤ (page - 1) * per_page := by
  unfold availablePages at hbeyond
  have h1 : ((total : Int) + per_page - 1) / per_page ≤ page - 1 := by omega
  have h2 := Int.lt_ediv_add_one_mul_self ((total : Int) + per_page - 1) (by omega : 0 < per_page)
  nlinarith

/-- The binary digits counted by `bitLengthAux` are really there: `2^(digits - 1) ≤ n`. -/
theorem pow_bitLengthAux_le (fuel n : Nat) (hfuel : n ≤ fuel) (hn : 1 ≤ n) :
    2 ^ (bitLengthAux fuel n - 1) ≤ n := by
  induction fuel generalizing n with
  | zero => omega
  | succ fuel ih =>
    have hne : n ≠ 0 := by omega
    simp only [bitLengthAux, hne, if_false, Nat.add_sub_cancel]
    by_cases hhalf : n / 2 = 0
    · have hzero : bitLengthAux fuel (n / 2) = 0 := by
        rw [hhalf]
        cases fuel <;> simp [bitLengthAux]
      rw [hzero]
      simpa using hn
    · have hfuel1 : 1 ≤ fuel := by omega
      have hih := ih (n / 2) (by omega) (by omega)
      have hpos : 1 ≤ bitLengthAux fuel (n / 2) := by
        obtain ⟨f, rfl⟩ : ∃ f, fuel = f + 1 := ⟨fuel - 1, by omega⟩
        simp [bitLengthAux, hhalf]
      have hsplit : bitLengthAux fuel (n / 2) = (bitLengthAux fuel (n / 2) - 1) + 1 := by omega
      rw [hsplit, pow_succ]
      omega

/-- Rounding to the nearest multiple never goes below the quotient. -/
theorem div_le_divRoundEven (a b : Nat) : a / b ≤ divRoundEven a b := by
  unfold divRoundEven
  split_ifs <;> omega

/-- An integer of magnitude up to `2^53` is a double. -/
theorem roundInteger_of_natAbs_le (n : Int) (hn : n.natAbs ≤ 2 ^ 53) :
    roundInteger n = JsInteger.finite n := by
  unfold roundInteger roundMagnitude
  rw [if_pos hn]
  by_cases hneg : n < 0
  · simp only [hneg, if_true]
    congr 1
    omega
  · simp only [hneg, if_false]
    congr 1
    omega

/-- A magnitude of at least `2^53` rounds to a double of at least `2^53`. -/
theorem roundMagnitude_ge (a m : Nat) (ha : 2 ^ 53 ≤ a) (hm : roundMagnitude a = some m) :
    2 ^ 53 ≤ m := by
  unfold roundMagnitude at hm
  by_cases hsmall : a ≤ 2 ^ 53
  · rw [if_pos hsmall] at hm
    cases hm
    exact ha
  · rw [if_neg hsmall] at hm
    by_cases hover : overflowThreshold ≤ a
    · rw [if_pos hover] at hm
      cases hm
    · rw [if_neg hover] at hm
      cases hm
      have hbits := pow_bitLengthAux_le a a (le_refl a) (by omega)
      have hquot := div_le_divRoundEven a (1 <<< (bitLength a - 53))
      rw [Nat.shiftLeft_eq, Nat.shiftLeft_eq, Nat.one_mul] at *
      by_cases hshift : bitLength a - 53 = 0
      · rw [hshift] at hquot ⊢
        simp only [pow_zero, Nat.div_one, Nat.mul_one] at hquot ⊢
        omega
      · have hlen : bitLengthAux a a - 1 = 52 + (bitLength a - 53) := by
          unfold bitLength at hshift ⊢
          omega
        rw [hlen, pow_add] at hbits
        have hpos : 0 < 2 ^ (bitLength a - 53) := Nat.pow_pos (by decide)
        have hdiv : 2 ^ 52 ≤ a / 2 ^ (bitLength a - 53) :=
          (Nat.le_div_iff_mul_le hpos).mpr hbits
        have hone : 2 ≤ 2 ^ (bitLength a - 53) := by
          obtain ⟨k, hk⟩ : ∃ k, bitLength a - 53 = k + 1 := ⟨bitLength a - 53 - 1, by omega⟩
          rw [hk, pow_succ]
          have := Nat.pow_pos (n := k) (by decide : 0 < 2)
          omega
        calc 2 ^ 53 = 2 ^ 52 * 2 := by norm_num
          _ ≤ divRoundEven a (2 ^ (bitLength a - 53)) * 2 ^ (bitLength a - 53) :=
            Nat.mul_le_mul (le_trans hdiv hquot) hone

/-- An integer of at least `2^53` rounds to a huge number. -/
theorem roundInteger_huge (n : Int) (hn : 2 ^ 53 ≤ n) : (roundInteger n).Huge := by
  have hnonneg : ¬ n < 0 := by omega
  have habs : 2 ^ 53 ≤ n.natAbs := by omega
  unfold roundInteger
  cases hround : roundMagnitude n.natAbs with
  | none =>
    left
    simp [hnonneg]
  | some m =>
    right
    have hm := roundMagnitude_ge n.natAbs m habs hround
    exact ⟨m, by simp [hnonneg], by omega⟩

/-- A huge index is clamped to the length of the array. -/
theorem sliceIndex_huge (len : Nat) (v : JsInteger) (hv : v.Huge) (hlen : len ≤ 2 ^ 53) :
    sliceIndex len v = len := by
  rcases hv with rfl | ⟨m, rfl, hm⟩
  · rfl
  · have hnonneg : ¬ m < 0 := by omega
    simp only [sliceIndex, relativeIndex, hnonneg, if_false]
    omega

/-- A huge number times a finite number of at least 1 is huge. -/
theorem integerMul_huge (v : JsInteger) (q : Int) (hv : v.Huge) (hq : 1 ≤ q) :
    (integerMul v (JsInteger.finite q)).Huge := by
  rcases hv with rfl | ⟨m, rfl, hm⟩
  · left
    have hne : q ≠ 0 := by omega
    have hpos : 0 < q := by omega
    simp [integerMul, infinityTimes, hne, hpos]
  · apply roundInteger_huge
    nlinarith

/-- A slice that starts at a huge index is empty. -/
theorem sliceNumbers_huge_start {α : Type} (xs : List α) (start end_ : JsInteger)
    (hstart : start.Huge) (hlen : xs.length ≤ 2 ^ 53) : sliceNumbers xs start end_ = [] := by
  simp only [sliceNumbers, sliceIndex_huge _ _ hstart hlen, List.drop_length, List.take_nil]

/-- The slice of the listing for a finite page and per_page of at least 1: the
arithmetic on doubles gives the records from offset `(page - 1) * per_page`,
`per_page` of them, as long as the array is no longer than an array can be. -/
theorem sliceNumbers_page {α : Type} (xs : List α) (p q : Int) (hp : 1 ≤ p) (hq : 1 ≤ q)
    (hlen : xs.length < 2 ^ 32) :
    sliceNumbers xs (integerMul (integerSub (JsInteger.finite p) 1) (JsInteger.finite q))
        (integerAdd (integerMul (integerSub (JsInteger.finite p) 1) (JsInteger.finite q))
          (JsInteger.finite q))
      = (xs.drop ((p - 1) * q).toNat).take q.toNat := by
  have hsub : integerSub (JsInteger.finite p) 1 = roundInteger (p - 1) := rfl
  have hlen53 : xs.length ≤ 2 ^ 53 := by omega
  have hoffset : 0 ≤ (p - 1) * q := mul_nonneg (by omega) (by omega)
  rw [hsub]
  by_cases hP : p - 1 ≤ 2 ^ 53
  · rw [roundInteger_of_natAbs_le (p - 1) (by omega)]
    have hmul : integerMul (JsInteger.finite (p - 1)) (JsInteger.finite q)
        = roundInteger ((p - 1) * q) := rfl
    rw [hmul]
    by_cases hX : (p - 1) * q ≤ 2 ^ 53
    · rw [roundInteger_of_natAbs_le ((p - 1) * q) (by omega)]
      have hadd : integerAdd (JsInteger.finite ((p - 1) * q)) (JsInteger.finite q)
          = roundInteger ((p - 1) * q + q) := rfl
      rw [hadd]
      by_cases hE : (p - 1) * q + q ≤ 2 ^ 53
      · rw [roundInteger_of_natAbs_le ((p - 1) * q + q) (by omega)]
        exact slice_eq_drop_take xs ((p - 1) * q) q hoffset (by omega)
      · have hend := roundInteger_huge ((p - 1) * q + q) (by omega)
        have hstart : sliceIndex xs.length (JsInteger.finite ((p - 1) * q))
            = min ((p - 1) * q).toNat xs.length := by
          simp only [sliceIndex, relativeIndex, if_neg (not_lt.mpr hoffset)]
        simp only [sliceNumbers, sliceIndex_huge _ _ hend hlen53, hstart]
        generalize (p - 1) * q = offset at hoffset hE ⊢
        rcases Nat.lt_or_ge offset.toNat xs.length with hin | hout
        · have hmin : min offset.toNat xs.length = offset.toNat := by omega
          rw [hmin, List.take_eq_take, List.length_drop]
          omega
        · have hmin : min offset.toNat xs.length = xs.length := by omega
          rw [hmin, List.drop_length, List.drop_eq_nil_of_le hout]
          simp
    · have hstart := roundInteger_huge ((p - 1) * q) (by omega)
      rw [sliceNumbers_huge_start xs _ _ hstart hlen53, List.drop_eq_nil_of_le]
      · simp
      · generalize (p - 1) * q = offset at hoffset hX ⊢
        omega
  · have hstart := integerMul_huge _ q (roundInteger_huge (p - 1) (by omega)) hq
    rw [sliceNumbers_huge_start xs _ _ hstart hlen53, List.drop_eq_nil_of_le]
    · simp
    · have hbig : p - 1 ≤ (p - 1) * q := le_mul_of_one_le_right (by omega) hq
      generalize (p - 1) * q = offset at hoffset hbig ⊢
      omega

/-- An integer other than 0 is read as a number that `||` keeps. -/
theorem orDefault_roundInteger (n : Int) (hn : n ≠ 0) (fallback : JsInteger) :
    orDefault (roundInteger n) fallback = roundInteger n := by
  by_cases hsmall : n.natAbs ≤ 2 ^ 53
  · rw [roundInteger_of_natAbs_le n hsmall]
    simp [orDefault, hn]
  · unfold roundInteger
    cases hround : roundMagnitude n.natAbs with
    | none => by_cases hneg : n < 0 <;> simp [hneg, orDefault]
    | some m =>
      have hm := roundMagnitude_ge n.natAbs m (by omega) hround
      have hne : (if n < 0 then -(m : Int) else (m : Int)) ≠ 0 := by
        split_ifs <;> omega
      simp only [orDefault, hne, if_false]

set_option maxRecDepth 100000 in
/-- C3 (counterexample): with `per_page=-3` the five matching records give a page of
two records, and with `page=-1&per_page=2` the page holds the records "B" and "C";
dropping `(page - 1) * per_page` records and taking `per_page` gives no record in
the first case and the records "A" and "B" in the second.  With a `per_page` of
`10^309`, which is read as `Infinity`, the start index `(1 - 1) * Infinity` is `NaN`
and page 1 holds no record at all. -/
theorem transactions_negative_paging :
    (getTransactions (some fiveRecords) (Query.mk none none (some "-3") none)).response
      = Response.ok
          { page := 1, per_page := JsInteger.finite (-3), total := 5
            transactions := [marchRecord "A" 10 "toys", marchRecord "B" 20 "toys"] } ∧
    pageOf (fiveRecords.filter (matchesSearch "")) 1 (-3) = [] ∧
    (getTransactions (some fiveRecords) (Query.mk none (some "-1") (some "2") none)).response
      = Response.ok
          { page := JsInteger.finite (-1), per_page := 2, total := 5
            transactions := [marchRecord "B" 20 "toys", marchRecord "C" 30 "toys"] } ∧
    pageOf (fiveRecords.filter (matchesSearch "")) (-1) 2
      = [marchRecord "A" 10 "toys", marchRecord "B" 20 "toys"] ∧
    (getTransactions (some fiveRecords) (Query.mk none none (some hugeNumeral) none)).response
      = Response.ok
          { page := 1, per_page := JsInteger.posInf, total := 5, transactions := [] } := by
  decide

/-- C3 (amended): for every dataset and query whose page and per_page, once coerced,
are finite numbers of at least 1, `/transactions` answers with the filtered records
from offset `(page - 1) * per_page`, `per_page` of them, in the original order, and
with no record when the page exceeds the number of available pages.  (The dataset
is an array, which holds fewer than `2^32` records.) -/
theorem transactions_page_slice (dataset : List Transaction) (query : Query) (p q : Int)
    (hpage : currentPageOf query = JsInteger.finite p)
    (hper : perPageOf query = JsInteger.finite q)
    (hp : 1 ≤ p) (hq : 1 ≤ q) (hlen : dataset.length < 2 ^ 32) :
    ∃ body : TransactionsBody,
      (getTransactions (some dataset) query).response = Response.ok body ∧
      body.page = JsInteger.finite p ∧
      body.per_page = JsInteger.finite q ∧
      body.total = (dataset.filter (matchesSearch (query.search.getD ""))).length ∧
      body.transactions = pageOf (dataset.filter (matchesSearch (query.search.getD ""))) p q ∧
      (availablePages body.total q < p → body.transactions = []) := by
  have hfiltered : (dataset.filter (matchesSearch (query.search.getD ""))).length < 2 ^ 32 :=
    Nat.lt_of_le_of_lt (List.length_filter_le _ _) hlen
  have hslice := sliceNumbers_page (dataset.filter (matchesSearch (query.search.getD "")))
    p q hp hq hfiltered
  refine ⟨_, rfl, hpage, hper, rfl, ?_, ?_⟩
  · show sliceNumbers _ _ _ = _
    rw [hpage, hper]
    exact hslice
  · intro hbeyond
    have htotal := total_le_offset _ _ _ hq hbeyond
    show sliceNumbers _ _ _ = _
    rw [hpage, hper, hslice, List.drop_eq_nil_of_le]
    · simp
    · show (dataset.filter (matchesSearch (query.search.getD ""))).length
          ≤ ((p - 1) * q).toNat
      have hcast : ((dataset.filter (matchesSearch (query.search.getD ""))).length : Int)
          ≤ (p - 1) * q := htotal
      omega

/-- Witness of C3 (amended): page 2 of the five records, two to a page, holds "C" and "D". -/
theorem transactions_page_slice_witness :
    currentPageOf (Query.mk none (some "2") (some "2") none) = JsInteger.finite 2 ∧
    perPageOf (Query.mk none (some "2") (some "2") none) = JsInteger.finite 2 ∧
    pageOf (fiveRecords.filter (matchesSearch "")) 2 2
      = [marchRecord "C" 30 "toys", marchRecord "D" 40 "toys"] ∧
    ∃ body : TransactionsBody,
      (getTransactions (some fiveRecords) (Query.mk none (some "2") (some "2") none)).response
        = Response.ok body ∧
      body.page = JsInteger.finite 2 ∧
      body.per_page = JsInteger.finite 2 ∧
      body.total = (fiveRecords.filter
        (matchesSearch ((Query.mk none (some "2") (some "2") none).search.getD ""))).length ∧
      body.transactions = pageOf (fiveRecords.filter
        (matchesSearch ((Query.mk none (some "2") (some "2") none).search.getD ""))) 2 2 ∧
      (availablePages body.total 2 < 2 → body.transactions = []) :=
  ⟨by decide, by decide, by decide,
    transactions_page_slice fiveRecords (Query.mk none (some "2") (some "2") none) 2 2
      (by decide) (by decide) (by decide) (by decide) (by decide)⟩

set_option maxRecDepth 100000 in
/-- C4 (evaluation at a failing input): a record priced `1e21` prints its price as
"1e+21"; searched for "E" it is not counted, although "E" occurs in the printed
price when letter case is ignored (the title "TV" and the description "HD TV"
hold no "e"). -/
theorem search_price_is_case_sensitive :
    numberToString (1000000000000000000000 : ℚ) = "1e+21" ∧
    includes (toLowerCase (numberToString (1000000000000000000000 : ℚ))) (toLowerCase "E") = true ∧
    (getTransactions (some [marchRecord "TV" 1000000000000000000000 "electronics"])
        (Query.mk (some "E") none none none)).response
      = Response.ok { page := 1, per_page := 10, total := 0, transactions := [] } ∧
    (getTransactions (some [marchRecord "TV" 1000000000000000000000 "electronics"])
        (Query.mk (some "e") none none none)).response
      = Response.ok
          { page := 1, per_page := 10, total := 1
            transactions := [marchRecord "TV" 1000000000000000000000 "electronics"] } := by
  decide

/-! ## Bar chart (C5) -/

/-- Counting the records that satisfy a test is adding one for each of them. -/
theorem sum_indicator_eq_length_filter {α : Type} (p : α → Bool) (xs : List α) :
    (xs.map (fun x => if p x then 1 else 0)).sum = (xs.filter p).length := by
  induction xs with
  | nil => rfl
  | cons x rest ih =>
    cases hp : p x <;> simp [List.filter_cons, hp, ih, Nat.add_comm]

/-- Double counting: the counts of a histogram add up to the number of ranges each
record lies in, added over the records. -/
theorem barTotal_countByRange (ranges : List PriceRange) (records : List Transaction) :
    barTotal (countByRange ranges records)
      = (records.map (fun t => (ranges.filter (fun r => inRange r t)).length)).sum := by
  induction records with
  | nil =>
    induction ranges with
    | nil => rfl
    | cons r rs ihr => simpa [barTotal, countByRange] using ihr
  | cons t rest ih =>
    have hsplit : barTotal (countByRange ranges (t :: rest))
        = (ranges.map (fun r => if inRange r t then 1 else 0)).sum
          + barTotal (countByRange ranges rest) := by
      simp only [barTotal, countByRange, List.map_map, ← List.sum_map_add]
      congr 1
      apply List.map_congr_left
      intro r _
      cases hr : inRange r t <;> simp [List.filter_cons, hr, Nat.add_comm]
    rw [hsplit, ih, sum_indicator_eq_length_filter]
    simp

/-- A price that is a whole number, zero or more, lies in exactly one of the ten ranges. -/
theorem whole_price_in_one_range (t : Transaction) (n : ℕ) (hn : t.price = n) :
    (barChartRanges.filter (fun r => inRange r t)).length = 1 := by
  rw [← sum_indicator_eq_length_filter]
  simp only [barChartRanges, List.map_cons, List.map_nil, List.sum_cons, List.sum_nil, inRange,
    lessEqMax, hn, ge_iff_le, Bool.and_eq_true, decide_eq_true_eq, Nat.ofNat_le_cast,
    Nat.cast_le_ofNat, Nat.cast_nonneg, Nat.cast_ofNat, and_true, true_and]
  have hcases : n ≤ 100 ∨ (101 ≤ n ∧ n ≤ 200) ∨ (201 ≤ n ∧ n ≤ 300) ∨ (301 ≤ n ∧ n ≤ 400) ∨
      (401 ≤ n ∧ n ≤ 500) ∨ (501 ≤ n ∧ n ≤ 600) ∨ (601 ≤ n ∧ n ≤ 700) ∨
      (701 ≤ n ∧ n ≤ 800) ∨ (801 ≤ n ∧ n ≤ 900) ∨ 901 ≤ n := by omega
  rcases hcases with h | h | h | h | h | h | h | h | h | h <;>
    simp (disch := omega) only [if_pos, if_neg, Nat.add_zero, Nat.zero_add]

/-- A record is counted in exactly one of the ten ranges when its price lies in
their span, and in none otherwise. -/
theorem price_in_ranges (t : Transaction) :
    (barChartRanges.filter (fun r => inRange r t)).length
      = if inSomeRange t.price then 1 else 0 := by
  rw [← sum_indicator_eq_length_filter]
  have hrange : List.range 9 = [0, 1, 2, 3, 4, 5, 6, 7, 8] := rfl
  simp only [barChartRanges, List.map_cons, List.map_nil, List.sum_cons, List.sum_nil, inRange,
    lessEqMax, ge_iff_le, Bool.and_eq_true, decide_eq_true_eq, and_true, inSomeRange, hrange,
    List.all_cons, List.all_nil, Bool.and_true, Bool.not_eq_true', Bool.and_eq_false_imp,
    decide_eq_false_iff_not, not_lt, Nat.cast_ofNat, Nat.cast_add, Nat.cast_mul, Nat.cast_one,
    Nat.cast_zero]
  norm_num
  generalize t.price = p
  have hcases : p < 0 ∨ (0 ≤ p ∧ p ≤ 100) ∨
      (100 < p ∧ p < 101) ∨ (101 ≤ p ∧ p ≤ 200) ∨
      (200 < p ∧ p < 201) ∨ (201 ≤ p ∧ p ≤ 300) ∨
      (300 < p ∧ p < 301) ∨ (301 ≤ p ∧ p ≤ 400) ∨
      (400 < p ∧ p < 401) ∨ (401 ≤ p ∧ p ≤ 500) ∨
      (500 < p ∧ p < 501) ∨ (501 ≤ p ∧ p ≤ 600) ∨
      (600 < p ∧ p < 601) ∨ (601 ≤ p ∧ p ≤ 700) ∨
      (700 < p ∧ p < 701) ∨ (701 ≤ p ∧ p ≤ 800) ∨
      (800 < p ∧ p < 801) ∨ (801 ≤ p ∧ p ≤ 900) ∨
      (900 < p ∧ p < 901) ∨ 901 ≤ p := by
    rcases lt_or_le p 0 with h | h
    · exact Or.inl h
    refine Or.inr ?_
    rcases le_or_lt p 100 with h1 | h1
    · exact Or.inl ⟨by assumption, h1⟩
    refine Or.inr ?_
    rcases lt_or_le p 101 with g1 | g1
    · exact Or.inl ⟨h1, g1⟩
    refine Or.inr ?_
    rcases le_or_lt p 200 with h2 | h2
    · exact Or.inl ⟨by assumption, h2⟩
    refine Or.inr ?_
    rcases lt_or_le p 201 with g2 | g2
    · exact Or.inl ⟨h2, g2⟩
    refine Or.inr ?_
    rcases le_or_lt p 300 with h3 | h3
    · exact Or.inl ⟨by assumption, h3⟩
    refine Or.inr ?_
    rcases lt_or_le p 301 with g3 | g3
    · exact Or.inl ⟨h3, g3⟩
    refine Or.inr ?_
    rcases le_or_lt p 400 with h4 | h4
    · exact Or.inl ⟨by assumption, h4⟩
    refine Or.inr ?_
    rcases lt_or_le p 401 with g4 | g4
    · exact Or.inl ⟨h4, g4⟩
    refine Or.inr ?_
    rcases le_or_lt p 500 with h5 | h5
    · exact Or.inl ⟨by assumption, h5⟩
    refine Or.inr ?_
    rcases lt_or_le p 501 with g5 | g5
    · exact Or.inl ⟨h5, g5⟩
    refine Or.inr ?_
    rcases le_or_lt p 600 with h6 | h6
    · exact Or.inl ⟨by assumption, h6⟩
    refine Or.inr ?_
    rcases lt_or_le p 601 with g6 | g6
    · exact Or.inl ⟨h6, g6⟩
    refine Or.inr ?_
    rcases le_or_lt p 700 with h7 | h7
    · exact Or.inl ⟨by assumption, h7⟩
    refine Or.inr ?_
    rcases lt_or_le p 701 with g7 | g7
    · exact Or.inl ⟨h7, g7⟩
    refine Or.inr ?_
    rcases le_or_lt p 800 with h8 | h8
    · exact Or.inl ⟨by assumption, h8⟩
    refine Or.inr ?_
    rcases lt_or_le p 801 with g8 | g8
    · exact Or.inl ⟨h8, g8⟩
    refine Or.inr ?_
    rcases le_or_lt p 900 with h9 | h9
    · exact Or.inl ⟨by assumption, h9⟩
    refine Or.inr ?_
    rcases lt_or_le p 901 with g9 | g9
    · exact Or.inl ⟨h9, g9⟩
    refine Or.inr ?_
    exact g9
  rcases hcases with h | ⟨ha, hb⟩ | ⟨ha, hb⟩ | ⟨ha, hb⟩ | ⟨ha, hb⟩ | ⟨ha, hb⟩ | ⟨ha, hb⟩ | ⟨ha, hb⟩ | ⟨ha, hb⟩ | ⟨ha, hb⟩ | ⟨ha, hb⟩ | ⟨ha, hb⟩ | ⟨ha, hb⟩ | ⟨ha, hb⟩ | ⟨ha, hb⟩ | ⟨ha, hb⟩ | ⟨ha, hb⟩ | ⟨ha, hb⟩ | ⟨ha, hb⟩ | h <;>
    simp (disch := with_unfolding_all first
      | (constructor <;> linarith)
      | (intro h; linarith [h.1, h.2])
      | linarith
      | (refine ⟨?_, ?_, ?_, ?_, ?_, ?_, ?_, ?_, ?_, ?_⟩ <;> first | linarith | (intro _; linarith))
      | (intro h
         obtain ⟨h0, h1, h2, h3, h4, h5, h6, h7, h8, h9⟩ := h
         first
           | linarith
           | linarith [h1 (by linarith)] | linarith [h2 (by linarith)]
           | linarith [h3 (by linarith)] | linarith [h4 (by linarith)]
           | linarith [h5 (by linarith)] | linarith [h6 (by linarith)]
           | linarith [h7 (by linarith)] | linarith [h8 (by linarith)]
           | linarith [h9 (by linarith)])) only [if_pos, if_neg]

/-- C5 (counterexample): a month with one record priced `-5` and one priced `100.5`;
neither price lies in any of the ten ranges, so the ten counts add up to 0 while
the month has 2 records. -/
theorem bar_chart_uncounted_prices :
    (getBarChart
        (some [marchRecord "A" (-5) "toys", marchRecord "B" (mkRat 201 2) "toys"])
        (monthQuery "March")).response
      = Response.ok emptyBarChart ∧
    barTotal emptyBarChart = 0 ∧
    (recordsOfMonth (2 : Fin 12)
        [marchRecord "A" (-5) "toys", marchRecord "B" (mkRat 201 2) "toys"]).length = 2 ∧
    barChartRanges.filter (fun r => inRange r (marchRecord "A" (-5) "toys")) = [] ∧
    barChartRanges.filter (fun r => inRange r (marchRecord "B" (mkRat 201 2) "toys")) = [] := by
  decide

/-- C5 (amended): for every dataset and valid month, `/bar-chart` answers with ten
buckets; a record of the month is counted in exactly one of them when its price is
zero or more and, for no `k` from 1 to 9, strictly between `100 k` and `100 k + 1`,
and in none of them otherwise; so the ten counts add up to the number of the
records of the month with such a price, and to the number of records whose sale
date falls in the month when every one of them has such a price. -/
theorem bar_chart_prices_in_span (dataset : List Transaction) (k : Fin 12)
    (search page per_page : Option String) :
    ∃ bars : List BarEntry,
      (getBarChart (some dataset) (Query.mk search page per_page (some (monthName k)))).response
        = Response.ok bars ∧
      bars.length = 10 ∧
      (∀ t ∈ recordsOfMonth k dataset,
        (barChartRanges.filter (fun r => inRange r t)).length
          = if inSomeRange t.price then 1 else 0) ∧
      barTotal bars
        = ((recordsOfMonth k dataset).filter (fun t => inSomeRange t.price)).length ∧
      ((∀ t ∈ recordsOfMonth k dataset, inSomeRange t.price = true) →
        (∀ t ∈ recordsOfMonth k dataset,
          (barChartRanges.filter (fun r => inRange r t)).length = 1) ∧
        barTotal bars = (recordsOfMonth k dataset).length) := by
  have htotal : barTotal (countByRange barChartRanges (recordsOfMonth k dataset))
      = ((recordsOfMonth k dataset).filter (fun t => inSomeRange t.price)).length := by
    rw [barTotal_countByRange, ← sum_indicator_eq_length_filter]
    exact congrArg List.sum (List.map_congr_left (fun t _ => price_in_ranges t))
  rw [getBarChart_valid]
  refine ⟨_, rfl, rfl, fun t _ => price_in_ranges t, htotal, ?_⟩
  intro hspan
  refine ⟨fun t ht => ?_, ?_⟩
  · rw [price_in_ranges, if_pos (hspan t ht)]
  · rw [htotal, List.filter_eq_self.mpr hspan]

/-- Witness of C5 (amended): four March records priced 0, 100, 329.85 and
1000000.5, two of the prices being no whole numbers, are counted once each: the
ten counts add up to 4.  A price of 100.5 lies outside the span of the ranges. -/
theorem bar_chart_prices_in_span_witness :
    (∀ t ∈ recordsOfMonth (2 : Fin 12) fractionalRecords, inSomeRange t.price = true) ∧
    fractionalRecords.map (fun t => numberToString t.price)
      = ["0", "100", "329.85", "1000000.5"] ∧
    inSomeRange (mkRat 201 2) = false ∧
    ∃ bars : List BarEntry,
      (getBarChart (some fractionalRecords)
          (Query.mk none none none (some (monthName (2 : Fin 12))))).response
        = Response.ok bars ∧
      barTotal bars = 4 ∧
      barTotal bars = (recordsOfMonth (2 : Fin 12) fractionalRecords).length := by
  have hspan : ∀ t ∈ recordsOfMonth (2 : Fin 12) fractionalRecords,
      inSomeRange t.price = true := by decide
  obtain ⟨bars, hbars, _, _, _, hall⟩ :=
    bar_chart_prices_in_span fractionalRecords 2 none none none
  have hsum := (hall hspan).2
  refine ⟨hspan, by decide, by decide, bars, hbars, ?_, hsum⟩
  rw [hsum]
  decide

/-! ## Pie chart (C8, C9) -/

/-- Reading the key of an entry of an object without repeated keys gives its value. -/
theorem lookup_of_mem (acc : CategoryCounts) (hnodup : (acc.map Prod.fst).Nodup)
    (e : String × Option Nat) (he : e ∈ acc) : lookup acc e.1 = Lookup.own e.2 := by
  induction acc with
  | nil => cases he
  | cons a rest ih =>
    rw [List.map_cons, List.nodup_cons] at hnodup
    rcases List.mem_cons.mp he with rfl | hrest
    · simp [lookup, List.find?_cons]
    · have hne : a.1 ≠ e.1 := fun h => hnodup.1 (h ▸ List.mem_map_of_mem Prod.fst hrest)
      have hstep : lookup (a :: rest) e.1 = lookup rest e.1 := by
        simp [lookup, List.find?_cons, hne]
      rw [hstep]
      exact ih hnodup.2 hrest

/-- Reading a key that is neither own nor inherited gives `undefined`. -/
theorem lookup_of_not_mem (acc : CategoryCounts) (key : String)
    (hkey : key ∉ acc.map Prod.fst) (hproto : key ∉ objectPrototypeKeys) :
    lookup acc key = Lookup.undefined := by
  have hfind : acc.find? (fun e => e.1 == key) = none := by
    rw [List.find?_eq_none]
    intro e he heq
    have hk : e.1 = key := by simpa using heq
    exact hkey (hk ▸ List.mem_map_of_mem Prod.fst he)
  simp [lookup, hfind, hproto]

/-- Assigning to a key that is not yet own, and not inherited, adds the entry last. -/
theorem assign_new (acc : CategoryCounts) (key : String) (value : Option Nat)
    (hkey : key ∉ acc.map Prod.fst) (hproto : key ∉ objectPrototypeKeys) :
    assign acc key value = acc ++ [(key, value)] := by
  have hne : key ≠ "__proto__" := fun h => hproto (h ▸ by decide)
  have hany : acc.any (fun e => e.1 == key) = false := by
    rw [List.any_eq_false]
    intro e he heq
    have hk : e.1 = key := by simpa using heq
    exact hkey (hk ▸ List.mem_map_of_mem Prod.fst he)
  simp [assign, hne, hany]

/-- Assigning to an own key replaces its value in place. -/
theorem assign_old (acc : CategoryCounts) (key : String) (value : Option Nat)
    (hkey : key ∈ acc.map Prod.fst) (hproto : key ∉ objectPrototypeKeys) :
    assign acc key value = acc.map (fun e => if e.1 == key then (e.1, value) else e) := by
  have hne : key ≠ "__proto__" := fun h => hproto (h ▸ by decide)
  have hany : acc.any (fun e => e.1 == key) = true := by
    rw [List.any_eq_true]
    obtain ⟨e, he, hk⟩ := List.mem_map.mp hkey
    exact ⟨e, he, by simp [hk]⟩
  simp [assign, hne, hany]

/-- Counting the records of a category after one more record was seen. -/
theorem countP_append_singleton (seen : List Transaction) (t : Transaction) (key : String) :
    (seen ++ [t]).countP (fun u => u.category == key)
      = seen.countP (fun u => u.category == key) + (if t.category = key then 1 else 0) := by
  by_cases h : t.category = key <;> simp [List.countP_append, List.countP_cons, h]

/-- One step of the category count keeps the counts right, provided the category of
the record is not the name of a member of `Object.prototype`. -/
theorem counted_step (acc : CategoryCounts) (seen : List Transaction) (t : Transaction)
    (hacc : Counted acc seen) (hproto : t.category ∉ objectPrototypeKeys) :
    Counted (countCategory acc t) (seen ++ [t]) := by
  obtain ⟨hnodup, hentries, hcover⟩ := hacc
  by_cases hkey : t.category ∈ acc.map Prod.fst
  · obtain ⟨e, he, hk⟩ := List.mem_map.mp hkey
    obtain ⟨hpos, hval⟩ := hentries e he
    have hlook : lookup acc t.category = Lookup.own e.2 := hk ▸ lookup_of_mem acc hnodup e he
    have htruthy : countTruthy (lookup acc t.category) = true := by
      rw [hlook, hval]
      simp only [countTruthy, bne_iff_ne, ne_eq]
      omega
    have hstep : countCategory acc t
        = acc.map (fun a => if a.1 == t.category then
            (a.1, some (seen.countP (fun u => u.category == e.1) + 1)) else a) := by
      simp only [countCategory, htruthy, Bool.not_true, Bool.false_eq_true, if_false]
      rw [assign_old acc _ _ hkey hproto, hlook, hval]
      rfl
    rw [hstep]
    refine ⟨?_, ?_, ?_⟩
    · have hfst : (acc.map (fun a => if a.1 == t.category then
          (a.1, some (seen.countP (fun u => u.category == e.1) + 1)) else a)).map Prod.fst
          = acc.map Prod.fst := by
        rw [List.map_map]
        apply List.map_congr_left
        intro a _
        by_cases ha : a.1 = t.category <;> simp [ha]
      rw [hfst]
      exact hnodup
    · intro a' ha'
      obtain ⟨a, ha, rfl⟩ := List.mem_map.mp ha'
      obtain ⟨hpos', hval'⟩ := hentries a ha
      by_cases hat : a.1 = t.category
      · have hae : a.1 = e.1 := hat.trans hk.symm
        simp only [hat, beq_self_eq_true, if_true, countP_append_singleton, hk]
        simp
      · have hne : ¬ t.category = a.1 := fun h => hat h.symm
        simp only [beq_iff_eq, hat, if_false, countP_append_singleton, hne, Nat.add_zero]
        exact ⟨hpos', hval'⟩
    · intro u hu
      have hfst : (acc.map (fun a => if a.1 == t.category then
          (a.1, some (seen.countP (fun u => u.category == e.1) + 1)) else a)).map Prod.fst
          = acc.map Prod.fst := by
        rw [List.map_map]
        apply List.map_congr_left
        intro a _
        by_cases ha : a.1 = t.category <;> simp [ha]
      rw [hfst]
      rcases List.mem_append.mp hu with hu | hu
      · exact hcover u hu
      · rw [List.mem_singleton.mp hu]
        exact hkey
  · have hlook : lookup acc t.category = Lookup.undefined :=
      lookup_of_not_mem acc _ hkey hproto
    have hnodup1 : ((acc ++ [(t.category, some 0)]).map Prod.fst).Nodup := by
      rw [List.map_append, List.map_singleton]
      exact List.Nodup.append hnodup (List.nodup_singleton _)
        (List.disjoint_singleton.mpr hkey)
    have hlook1 : lookup (acc ++ [(t.category, some 0)]) t.category = Lookup.own (some 0) :=
      lookup_of_mem _ hnodup1 (t.category, some 0) (by simp)
    have hkey1 : t.category ∈ (acc ++ [(t.category, some 0)]).map Prod.fst := by simp
    have hsame : acc.map (fun a => if a.1 == t.category then (a.1, some (0 + 1)) else a) = acc := by
      conv_rhs => rw [← List.map_id acc]
      apply List.map_congr_left
      intro a ha
      have hne : a.1 ≠ t.category := fun h => hkey (h ▸ List.mem_map_of_mem Prod.fst ha)
      simp [hne]
    have hstep : countCategory acc t = acc ++ [(t.category, some 1)] := by
      simp only [countCategory, hlook, countTruthy, Bool.not_false, if_true]
      rw [assign_new acc _ _ hkey hproto, hlook1, assign_old _ _ _ hkey1 hproto]
      simp only [countToNumber, Option.map_some', List.map_append, hsame]
      simp
    have hzero : seen.countP (fun u => u.category == t.category) = 0 := by
      rw [List.countP_eq_zero]
      intro u hu hcat
      have : u.category = t.category := by simpa using hcat
      exact hkey (this ▸ hcover u hu)
    rw [hstep]
    refine ⟨?_, ?_, ?_⟩
    · rw [List.map_append, List.map_singleton]
      exact List.Nodup.append hnodup (List.nodup_singleton _)
        (List.disjoint_singleton.mpr hkey)
    · intro a ha
      rcases List.mem_append.mp ha with ha | ha
      · obtain ⟨hpos', hval'⟩ := hentries a ha
        have hne : ¬ t.category = a.1 :=
          fun h => hkey (h ▸ List.mem_map_of_mem Prod.fst ha)
        simp only [countP_append_singleton, hne, if_false, Nat.add_zero]
        exact ⟨hpos', hval'⟩
      · rw [List.mem_singleton.mp ha]
        simp only [countP_append_singleton, hzero, if_true]
        simp
    · intro u hu
      rw [List.map_append, List.map_singleton]
      rcases List.mem_append.mp hu with hu | hu
      · exact List.mem_append_left _ (hcover u hu)
      · rw [List.mem_singleton.mp hu]
        simp

/-- The category count of a list of records keeps the counts right, provided no
category is the name of a member of `Object.prototype`. -/
theorem counted_foldl (records : List Transaction) (acc : CategoryCounts)
    (seen : List Transaction) (hacc : Counted acc seen)
    (hproto : ∀ t ∈ records, t.category ∉ objectPrototypeKeys) :
    Counted (records.foldl countCategory acc) (seen ++ records) := by
  induction records generalizing acc seen with
  | nil => simpa using hacc
  | cons t rest ih =>
    have hstep := counted_step acc seen t hacc (hproto t (List.mem_cons_self _ _))
    have hrest := ih _ _ hstep (fun u hu => hproto u (List.mem_cons_of_mem _ hu))
    simpa [List.append_assoc] using hrest

/-- A key that denotes an array index is the decimal form of that index. -/
theorem arrayIndex_eq_some (key : String) (n : Nat) (h : arrayIndex key = some n) :
    natToString n = key := by
  unfold arrayIndex at h
  split at h
  · cases h
  · simp only at h
    split at h
    · rename_i hc
      cases h
      exact hc.1
    · cases h

/-- The array-index keys, converted to numbers and back, are the keys themselves. -/
theorem map_filterMap_arrayIndex (acc : CategoryCounts) :
    (acc.filterMap (fun e => arrayIndex e.1)).map natToString
      = (acc.filter (fun e => (arrayIndex e.1).isSome)).map Prod.fst := by
  induction acc with
  | nil => rfl
  | cons a rest ih =>
    cases h : arrayIndex a.1 with
    | none => simp [List.filterMap_cons, List.filter_cons, h, ih]
    | some n => simp [List.filterMap_cons, List.filter_cons, h, ih, arrayIndex_eq_some a.1 n h]

/-- `Object.keys` lists every own key once: it is a rearrangement of the keys. -/
theorem objectKeys_perm (acc : CategoryCounts) :
    (objectKeys acc).Perm (acc.map Prod.fst) := by
  have hsorted : (((acc.filterMap (fun e => arrayIndex e.1)).insertionSort
      (fun a b => a ≤ b)).map natToString).Perm
      ((acc.filter (fun e => (arrayIndex e.1).isSome)).map Prod.fst) := by
    rw [← map_filterMap_arrayIndex]
    exact (List.perm_insertionSort _ _).map _
  have hnone : (acc.filter (fun e => (arrayIndex e.1).isNone))
      = acc.filter (fun e => !(arrayIndex e.1).isSome) := by
    congr 1
    funext e
    cases arrayIndex e.1 <;> rfl
  unfold objectKeys
  rw [hnone]
  refine (hsorted.append_right _).trans ?_
  rw [← List.map_append]
  exact (List.filter_append_perm _ acc).map _

/-- Away from the names of the members of `Object.prototype` the pie chart is right:
no category is listed twice, every listed count is positive and is the number of
records of that category, every category of a record is listed, and the counts
add up to the number of records. -/
theorem pieChartOf_counts (records : List Transaction)
    (hproto : ∀ t ∈ records, t.category ∉ objectPrototypeKeys) :
    ((pieChartOf records).map (fun e => e.category)).Nodup ∧
    (∀ e ∈ pieChartOf records,
      0 < records.countP (fun t => t.category == e.category) ∧
      e.count = some (records.countP (fun t => t.category == e.category))) ∧
    (∀ t ∈ records, t.category ∈ (pieChartOf records).map (fun e => e.category)) ∧
    ((pieChartOf records).map (fun e => e.count.getD 0)).sum = records.length := by
  have hcounted : Counted (records.foldl countCategory []) records := by
    have h := counted_foldl records [] [] ⟨List.nodup_nil, by simp, by simp⟩ hproto
    simpa using h
  obtain ⟨hnodup, hentries, hcover⟩ := hcounted
  have hperm := objectKeys_perm (records.foldl countCategory [])
  have hcategories : (pieChartOf records).map (fun e => e.category)
      = objectKeys (records.foldl countCategory []) := by
    simp [pieChartOf, List.map_map, Function.comp_def]
  have hentry : ∀ c ∈ objectKeys (records.foldl countCategory []),
      0 < records.countP (fun t => t.category == c) ∧
      countToNumber (lookup (records.foldl countCategory []) c)
        = some (records.countP (fun t => t.category == c)) := by
    intro c hc
    obtain ⟨a, ha, rfl⟩ := List.mem_map.mp (hperm.mem_iff.mp hc)
    obtain ⟨hpos, hval⟩ := hentries a ha
    rw [lookup_of_mem _ hnodup a ha]
    exact ⟨hpos, hval⟩
  refine ⟨?_, ?_, ?_, ?_⟩
  · rw [hcategories]
    exact hperm.nodup_iff.mpr hnodup
  · intro e he
    obtain ⟨c, hc, rfl⟩ := List.mem_map.mp he
    exact hentry c hc
  · intro t ht
    rw [hcategories]
    exact hperm.mem_iff.mpr (hcover t ht)
  · have hsum : (pieChartOf records).map (fun e => e.count.getD 0)
        = (objectKeys (records.foldl countCategory [])).map
            (fun c => (records.map (fun t => t.category)).count c) := by
      simp only [pieChartOf, List.map_map]
      apply List.map_congr_left
      intro c hc
      simp only [Function.comp_apply, (hentry c hc).2, Option.getD_some, List.count_eq_countP,
        List.countP_map]
      congr 1
    have hdedup : (objectKeys (records.foldl countCategory [])).Perm
        (records.map (fun t => t.category)).dedup := by
      refine hperm.trans ((List.perm_ext_iff_of_nodup hnodup (List.nodup_dedup _)).mpr ?_)
      intro c
      rw [List.mem_dedup]
      constructor
      · intro hc
        obtain ⟨a, ha, rfl⟩ := List.mem_map.mp hc
        have hpos := (hentries a ha).1
        obtain ⟨t, ht, hcat⟩ := List.countP_pos_iff.mp hpos
        exact List.mem_map.mpr ⟨t, ht, by simpa using hcat⟩
      · intro hc
        obtain ⟨t, ht, rfl⟩ := List.mem_map.mp hc
        exact hcover t ht
    rw [hsum, (hdedup.map _).sum_eq, List.sum_map_count_dedup_eq_length, List.length_map]

/-- C8 (evaluation at a failing input): a month whose only record has the category
`"__proto__"`.  The read `acc["__proto__"]` gives the prototype object, which is
truthy, and the write `acc["__proto__"]++` is ignored, so the record is counted
nowhere: the response is the empty list, whose counts add up to 0, while the month
has 1 record. -/
theorem pie_chart_drops_proto_category :
    (getPieChart (some [marchRecord "TV" 50 "__proto__"]) (monthQuery "March")).response
      = Response.ok [] ∧
    (recordsOfMonth (2 : Fin 12) [marchRecord "TV" 50 "__proto__"]).length = 1 := by
  decide

/-- C9 (evaluation at a failing input): a month with three records of category
`"toString"`, one of category `"constructor"` and one of category `"toys"`.  The
first record of an inherited name turns the count into `NaN`, the next one resets
it to 0 before adding one: `"toString"` is listed with 2 for its 3 records,
`"constructor"` with `NaN` (written `null`) for its 1 record, and only `"toys"`
with its true count. -/
theorem pie_chart_miscounts_inherited_names :
    (getPieChart
        (some [marchRecord "A" 10 "toString", marchRecord "B" 20 "constructor",
               marchRecord "C" 30 "toString", marchRecord "D" 40 "toys",
               marchRecord "E" 50 "toString"])
        (monthQuery "March")).response
      = Response.ok
          [ { category := "toString", count := some 2 },
            { category := "constructor", count := none },
            { category := "toys", count := some 1 } ] ∧
    ((recordsOfMonth (2 : Fin 12)
        [marchRecord "A" 10 "toString", marchRecord "B" 20 "constructor",
         marchRecord "C" 30 "toString", marchRecord "D" 40 "toys",
         marchRecord "E" 50 "toString"]).filter (fun t => t.category == "toString")).length
      = 3 := by
  decide

/-! ## Error handling (C11, C12) -/

/-- C11: a month that the validation rejects is answered with the 400 invalid-month
response by each of the four month-scoped routes before the dataset is requested:
no fetch is made, and the response is the same whether the remote source would
have delivered the dataset, failed, or delivered a malformed body. -/
theorem rejected_month_not_fetched (month : String)
    (hrejected : (getMonthNumber month).truthy = false) (reply : RemoteReply)
    (search page per_page : Option String) (pageNumber perPageNumber : Option (Option Int)) :
    getStatistics (fetchTransactions reply) (Query.mk search page per_page (some month))
        = Outcome.mk (Response.error 400 "Invalid month name. Use full month name.") 0 ∧
    getBarChart (fetchTransactions reply) (Query.mk search page per_page (some month))
        = Outcome.mk (Response.error 400 "Invalid month name. Use full month name.") 0 ∧
    getPieChart (fetchTransactions reply) (Query.mk search page per_page (some month))
        = Outcome.mk (Response.error 400 "Invalid month name. Use full month name.") 0 ∧
    getCombinedData (fetchTransactions reply)
        (CombinedQuery.mk (some month) search pageNumber perPageNumber)
        = Outcome.mk (Response.error 400 "Invalid month name. Use full month name.") 0 := by
  simp [getStatistics, getBarChart, getPieChart, getCombinedData, hrejected]

/-- Witness of C11: the month "Foo", with a remote source that delivers records,
one that fails and one that delivers a malformed body. -/
theorem rejected_month_not_fetched_witness :
    (getMonthNumber "Foo").truthy = false ∧
    (getStatistics (fetchTransactions (RemoteReply.dataset fiveRecords))
        (Query.mk none none none (some "Foo"))
        = Outcome.mk (Response.error 400 "Invalid month name. Use full month name.") 0 ∧
      getBarChart (fetchTransactions (RemoteReply.dataset fiveRecords))
        (Query.mk none none none (some "Foo"))
        = Outcome.mk (Response.error 400 "Invalid month name. Use full month name.") 0 ∧
      getPieChart (fetchTransactions (RemoteReply.dataset fiveRecords))
        (Query.mk none none none (some "Foo"))
        = Outcome.mk (Response.error 400 "Invalid month name. Use full month name.") 0 ∧
      getCombinedData (fetchTransactions (RemoteReply.dataset fiveRecords))
        (CombinedQuery.mk (some "Foo") none none none)
        = Outcome.mk (Response.error 400 "Invalid month name. Use full month name.") 0) ∧
    (getStatistics (fetchTransactions (RemoteReply.failure "ECONNREFUSED"))
        (Query.mk none none none (some "Foo"))
        = Outcome.mk (Response.error 400 "Invalid month name. Use full month name.") 0 ∧
      getBarChart (fetchTransactions (RemoteReply.failure "ECONNREFUSED"))
        (Query.mk none none none (some "Foo"))
        = Outcome.mk (Response.error 400 "Invalid month name. Use full month name.") 0 ∧
      getPieChart (fetchTransactions (RemoteReply.failure "ECONNREFUSED"))
        (Query.mk none none none (some "Foo"))
        = Outcome.mk (Response.error 400 "Invalid month name. Use full month name.") 0 ∧
      getCombinedData (fetchTransactions (RemoteReply.failure "ECONNREFUSED"))
        (CombinedQuery.mk (some "Foo") none none none)
        = Outcome.mk (Response.error 400 "Invalid month name. Use full month name.") 0) ∧
    (getStatistics (fetchTransactions (RemoteReply.malformed "<html>"))
        (Query.mk none none none (some "Foo"))
        = Outcome.mk (Response.error 400 "Invalid month name. Use full month name.") 0 ∧
      getBarChart (fetchTransactions (RemoteReply.malformed "<html>"))
        (Query.mk none none none (some "Foo"))
        = Outcome.mk (Response.error 400 "Invalid month name. Use full month name.") 0 ∧
      getPieChart (fetchTransactions (RemoteReply.malformed "<html>"))
        (Query.mk none none none (some "Foo"))
        = Outcome.mk (Response.error 400 "Invalid month name. Use full month name.") 0 ∧
      getCombinedData (fetchTransactions (RemoteReply.malformed "<html>"))
        (CombinedQuery.mk (some "Foo") none none none)
        = Outcome.mk (Response.error 400 "Invalid month name. Use full month name.") 0) :=
  ⟨by decide,
    rejected_month_not_fetched "Foo" (by decide) (RemoteReply.dataset fiveRecords)
      none none none none none,
    rejected_month_not_fetched "Foo" (by decide) (RemoteReply.failure "ECONNREFUSED")
      none none none none none,
    rejected_month_not_fetched "Foo" (by decide) (RemoteReply.malformed "<html>")
      none none none none none⟩

/-- C12: when the retrieval of the dataset fails, whatever the cause, every route
(with a valid month where one is required) answers with status 500 and its own
fixed message. -/
theorem retrieval_failure_answers_500 (cause : String) (k : Fin 12) (query : Query)
    (search page per_page : Option String) (pageNumber perPageNumber : Option (Option Int)) :
    (getTransactions (fetchTransactions (RemoteReply.failure cause)) query).response
        = Response.error 500 "Failed to fetch transactions" ∧
    (getStatistics (fetchTransactions (RemoteReply.failure cause))
        (Query.mk search page per_page (some (monthName k)))).response
        = Response.error 500 "Failed to fetch statistics" ∧
    (getBarChart (fetchTransactions (RemoteReply.failure cause))
        (Query.mk search page per_page (some (monthName k)))).response
        = Response.error 500 "Failed to fetch bar chart data" ∧
    (getPieChart (fetchTransactions (RemoteReply.failure cause))
        (Query.mk search page per_page (some (monthName k)))).response
        = Response.error 500 "Failed to fetch pie chart data" ∧
    (getCombinedData (fetchTransactions (RemoteReply.failure cause))
        (CombinedQuery.mk (some (monthName k)) search pageNumber perPageNumber)).response
        = Response.error 500 "Failed to fetch combined data" := by
  simp [getTransactions, getStatistics, getBarChart, getPieChart, getCombinedData,
    fetchTransactions, truthy_getMonthNumber]

/-! ## Coercion of `page` and `per_page` (C13) -/

/-- C13 (counterexample): the query values `page=0` and `per_page=0` parse as the
integer 0, yet the echoed page is 1 and the echoed per_page is 10, and the slice
is taken with these values (the five records all come back).  The query value
`page=9007199254740993` parses as an integer that is no double: the echoed page is
`9007199254740992`. -/
theorem zero_page_falls_back :
    readInteger "0" = some 0 ∧
    (getTransactions (some fiveRecords) (Query.mk none (some "0") (some "0") none)).response
      = Response.ok { page := 1, per_page := 10, total := 5, transactions := fiveRecords } ∧
    readInteger "9007199254740993" = some 9007199254740993 ∧
    (getTransactions (some fiveRecords)
        (Query.mk none (some "9007199254740993") none none)).response
      = Response.ok
          { page := JsInteger.finite 9007199254740992, per_page := 10, total := 5
            transactions := [] } := by
  decide

/-- C13 (amended): in `/transactions`, when `parseInt` reads an integer `n` other
than 0 from the query value of `page` (of `per_page`), the echoed value is the
double nearest to `n`, which is `n` itself when its magnitude is at most `2^53`;
when the parameter is absent, when no integer can be read from it, or when the
integer read is 0, the echoed page is 1 (the echoed per_page is 10).  The slice is
taken with the echoed values. -/
theorem transactions_coercion (dataset : List Transaction) (query : Query) :
    ∃ body : TransactionsBody,
      (getTransactions (some dataset) query).response = Response.ok body ∧
      (∀ s n, query.page = some s → readInteger s = some n → n ≠ 0 →
        body.page = roundInteger n ∧ (n.natAbs ≤ 2 ^ 53 → body.page = JsInteger.finite n)) ∧
      (query.page = none → body.page = 1) ∧
      (∀ s, query.page = some s → readInteger s = none → body.page = 1) ∧
      (∀ s, query.page = some s → readInteger s = some 0 → body.page = 1) ∧
      (∀ s n, query.per_page = some s → readInteger s = some n → n ≠ 0 →
        body.per_page = roundInteger n ∧
        (n.natAbs ≤ 2 ^ 53 → body.per_page = JsInteger.finite n)) ∧
      (query.per_page = none → body.per_page = 10) ∧
      (∀ s, query.per_page = some s → readInteger s = none → body.per_page = 10) ∧
      (∀ s, query.per_page = some s → readInteger s = some 0 → body.per_page = 10) ∧
      body.transactions
        = sliceNumbers (dataset.filter (matchesSearch (query.search.getD "")))
            (integerMul (integerSub body.page 1) body.per_page)
            (integerAdd (integerMul (integerSub body.page 1) body.per_page) body.per_page) := by
  have hone : parseInt "1" = 1 := by decide
  have hten : parseInt "10" = 10 := by decide
  have hzero : roundInteger 0 = JsInteger.finite 0 := by decide
  refine ⟨_, rfl, ?_, ?_, ?_, ?_, ?_, ?_, ?_, ?_, rfl⟩
  · intro s n hs hn hne
    have hpage : currentPageOf query = roundInteger n := by
      simp only [currentPageOf, hs, Option.getD_some, parseInt, hn]
      exact orDefault_roundInteger n hne _
    exact ⟨hpage, fun hsmall => hpage.trans (roundInteger_of_natAbs_le n hsmall)⟩
  · intro hs
    show currentPageOf query = 1
    simp only [currentPageOf, hs, Option.getD_none, hone]
    rfl
  · intro s hs hn
    show currentPageOf query = 1
    simp only [currentPageOf, hs, Option.getD_some, parseInt, hn]
    rfl
  · intro s hs hn
    show currentPageOf query = 1
    simp only [currentPageOf, hs, Option.getD_some, parseInt, hn, hzero]
    rfl
  · intro s n hs hn hne
    have hper : perPageOf query = roundInteger n := by
      simp only [perPageOf, hs, Option.getD_some, parseInt, hn]
      exact orDefault_roundInteger n hne _
    exact ⟨hper, fun hsmall => hper.trans (roundInteger_of_natAbs_le n hsmall)⟩
  · intro hs
    show perPageOf query = 10
    simp only [perPageOf, hs, Option.getD_none, hten]
    rfl
  · intro s hs hn
    show perPageOf query = 10
    simp only [perPageOf, hs, Option.getD_some, parseInt, hn]
    rfl
  · intro s hs hn
    show perPageOf query = 10
    simp only [perPageOf, hs, Option.getD_some, parseInt, hn, hzero]
    rfl

/-- Witness of C13 (amended): `page=2&per_page=-3abc` is echoed as page 2 and
per_page -3, and `page=abc` with no `per_page` as page 1 and per_page 10. -/
theorem transactions_coercion_witness :
    readInteger "2" = some 2 ∧ readInteger "-3abc" = some (-3) ∧ readInteger "abc" = none ∧
    (∃ body : TransactionsBody,
      (getTransactions (some fiveRecords)
          (Query.mk none (some "2") (some "-3abc") none)).response = Response.ok body ∧
      body.page = JsInteger.finite 2 ∧ body.per_page = JsInteger.finite (-3)) ∧
    (∃ body : TransactionsBody,
      (getTransactions (some fiveRecords)
          (Query.mk none (some "abc") none none)).response = Response.ok body ∧
      body.page = 1 ∧ body.per_page = 10) := by
  refine ⟨by decide, by decide, by decide, ?_, ?_⟩
  · obtain ⟨body, hbody, hpage, _, _, _, hper, _, _, _, _⟩ :=
      transactions_coercion fiveRecords (Query.mk none (some "2") (some "-3abc") none)
    exact ⟨body, hbody, (hpage "2" 2 rfl (by decide) (by decide)).2 (by decide),
      (hper "-3abc" (-3) rfl (by decide) (by decide)).2 (by decide)⟩
  · obtain ⟨body, hbody, _, _, hpage, _, _, hper, _, _, _⟩ :=
      transactions_coercion fiveRecords (Query.mk none (some "abc") none none)
    exact ⟨body, hbody, hpage "abc" rfl (by decide), hper rfl⟩

/-! ## Shape of the bar chart (C14) -/

/-- C14: for every dataset and valid month the `/bar-chart` response has exactly ten
entries, in the ascending order of the ranges [0,100], [101,200], ..., [801,900],
[901, infinity); the sequence of labels is fixed, each entry carries the count of
the month's records in its range, and buckets without record are kept with count 0
(all ten of them when the month has no record). -/
theorem bar_chart_ten_buckets (dataset : List Transaction) (k : Fin 12)
    (search page per_page : Option String) :
    ∃ bars : List BarEntry,
      (getBarChart (some dataset) (Query.mk search page per_page (some (monthName k)))).response
        = Response.ok bars ∧
      bars.length = 10 ∧
      bars.map (fun e => e.range)
        = ["0 - 100", "101 - 200", "201 - 300", "301 - 400", "401 - 500", "501 - 600",
           "601 - 700", "701 - 800", "801 - 900", "901 - above"] ∧
      barChartRanges.map (fun r => (r.min, r.max))
        = [(0, some 100), (101, some 200), (201, some 300), (301, some 400), (401, some 500),
           (501, some 600), (601, some 700), (701, some 800), (801, some 900), (901, none)] ∧
      bars.map (fun e => e.count)
        = barChartRanges.map (fun r => ((recordsOfMonth k dataset).filter (inRange r)).length) ∧
      (getBarChart (some []) (Query.mk search page per_page (some (monthName k)))).response
        = Response.ok emptyBarChart := by
  rw [getBarChart_valid, getBarChart_valid]
  refine ⟨_, rfl, rfl, rfl, rfl, ?_, rfl⟩
  simp [countByRange, List.map_map, Function.comp_def]

/-! ## The month filter (C16) -/

/-- C16: the month filter keeps a record if and only if the month of its sale date is
the named month, whatever the year: the 1-indexed month of a date, written in
decimal and padded on the left with '0' to two characters, is the month number of
the month name of the same position and of no other; a record without valid date
is never kept. -/
theorem month_filter_by_calendar_month :
    (∀ (k j : Fin 12) (year : Int) (day : Nat),
      transactionMonthOf (JsDate.valid year j day) = padStart (natToString (j.val + 1)) 2 '0' ∧
      getMonthNumber (monthName k) = Lookup.own (transactionMonthOf (JsDate.valid year k day)) ∧
      (strictEquals (transactionMonthOf (JsDate.valid year j day)) (getMonthNumber (monthName k))
          = true ↔ j = k)) ∧
    (∀ k : Fin 12,
      strictEquals (transactionMonthOf JsDate.invalid) (getMonthNumber (monthName k)) = false) ∧
    (∀ (k : Fin 12) (dataset : List Transaction) (t : Transaction),
      t ∈ dataset.filter (fun transaction =>
          strictEquals (transactionMonthOf transaction.dateOfSale) (getMonthNumber (monthName k)))
        ↔ t ∈ dataset ∧ ∃ year day, t.dateOfSale = JsDate.valid year k day) := by
  refine ⟨?_, by decide, ?_⟩
  · intro k j year day
    have hmonth : transactionMonthOf (JsDate.valid year j day)
        = transactionMonthOf (JsDate.valid 0 j 0) := rfl
    have hcode : transactionMonthOf (JsDate.valid year k day)
        = transactionMonthOf (JsDate.valid 0 k 0) := rfl
    rw [hmonth, hcode]
    clear hmonth hcode
    revert k j
    decide
  · intro k dataset t
    rw [monthFilter_eq, recordsOfMonth, List.mem_filter]
    constructor
    · rintro ⟨hmem, hin⟩
      refine ⟨hmem, ?_⟩
      unfold inMonth at hin
      cases hdate : t.dateOfSale with
      | invalid => rw [hdate] at hin; cases hin
      | valid year monthIndex day =>
        rw [hdate] at hin
        have hk : monthIndex = k := by simpa using hin
        exact ⟨year, day, by rw [hk]⟩
    · rintro ⟨hmem, year, day, hdate⟩
      refine ⟨hmem, ?_⟩
      simp [inMonth, hdate]

/-! ## Pagination of `/combined-data` (C15) -/

/-- With indices that are not negative, `slice(a, b)` is the part of the list from
index `a` up to index `b`. -/
theorem slice_eq_segment {α : Type} (xs : List α) (a b : Int) (ha : 0 ≤ a) (hb : 0 ≤ b) :
    slice xs a b = segment xs a b := by
  have h1 : relativeIndex xs.length a = min a.toNat xs.length := by
    simp only [relativeIndex, if_neg (not_lt.mpr ha)]
  have h2 : relativeIndex xs.length b = min b.toNat xs.length := by
    simp only [relativeIndex, if_neg (not_lt.mpr hb)]
  simp only [slice, segment, h1, h2, List.drop_take]
  rcases Nat.lt_or_ge a.toNat xs.length with h | h
  · have hmin : min a.toNat xs.length = a.toNat := by omega
    rw [hmin, List.take_eq_take, List.length_drop]
    omega
  · have hmin : min a.toNat xs.length = xs.length := by omega
    rw [hmin, List.drop_length, List.drop_eq_nil_of_le h]
    simp

/-- C15 (counterexample): `month=March&page=1&per_page=-2` on five March records.
The bounds are `(1 - 1) * (-2) = 0` and `1 * (-2) = -2`; no index lies from 0 up to
-2, but `slice(0, -2)` counts the end index from the end of the list and the
response holds the first three records. -/
theorem combined_negative_per_page :
    ∃ body : CombinedBody,
      (getCombinedData (some fiveRecords)
          (CombinedQuery.mk (some "March") none (some (some 1)) (some (some (-2))))).response
        = Response.ok body ∧
      body.transactions
        = [marchRecord "A" 10 "toys", marchRecord "B" 20 "toys", marchRecord "C" 30 "toys"] ∧
      segment (recordsOfMonth (2 : Fin 12) fiveRecords) ((1 - 1) * (-2)) (1 * (-2)) = [] := by
  have hmonth : "March" = monthName (2 : Fin 12) := rfl
  rw [hmonth, getCombinedData_valid]
  exact ⟨_, rfl, by decide, by decide⟩

/-- C15 (amended): for every dataset, valid month and integer page and per_page (an
absent one being 1, respectively 10) such that neither `(page - 1) * per_page` nor
`page * per_page` is negative, the `transactions` field of `/combined-data` is the
part of the month's records from index `(page - 1) * per_page` up to (not
including) `page * per_page`, in the original order; and for any request, the
`search` parameter has no effect on the response. -/
theorem combined_page_segment (dataset : List Transaction) (k : Fin 12)
    (search : Option String) (page per_page : Option Int)
    (hstart : 0 ≤ (page.getD 1 - 1) * per_page.getD 10)
    (hend : 0 ≤ page.getD 1 * per_page.getD 10) :
    (∃ body : CombinedBody,
      (getCombinedData (some dataset)
          (CombinedQuery.mk (some (monthName k)) search (page.map some)
            (per_page.map some))).response
        = Response.ok body ∧
      body.transactions
        = segment (recordsOfMonth k dataset) ((page.getD 1 - 1) * per_page.getD 10)
            (page.getD 1 * per_page.getD 10)) ∧
    (∀ (remote : Option (List Transaction)) (month otherSearch : Option String)
        (pageNumber perPageNumber : Option (Option Int)),
      getCombinedData remote (CombinedQuery.mk month otherSearch pageNumber perPageNumber)
        = getCombinedData remote (CombinedQuery.mk month search pageNumber perPageNumber)) := by
  refine ⟨?_, fun _ _ _ _ _ => rfl⟩
  rw [getCombinedData_valid]
  refine ⟨_, rfl, ?_⟩
  have hpage : (page.map some).getD (some 1) = some (page.getD 1) := by
    cases page <;> rfl
  have hper : (per_page.map some).getD (some 10) = some (per_page.getD 10) := by
    cases per_page <;> rfl
  simp only [hpage, hper, numSub, numMul, toIntegerOrInfinity, Option.getD_some]
  exact slice_eq_segment _ _ _ hstart hend

/-- Witness of C15 (amended): page 2 of the five March records, two to a page. -/
theorem combined_page_segment_witness :
    0 ≤ ((some 2 : Option Int).getD 1 - 1) * (some 2 : Option Int).getD 10 ∧
    0 ≤ (some 2 : Option Int).getD 1 * (some 2 : Option Int).getD 10 ∧
    segment (recordsOfMonth (2 : Fin 12) fiveRecords)
        (((some 2 : Option Int).getD 1 - 1) * (some 2 : Option Int).getD 10)
        ((some 2 : Option Int).getD 1 * (some 2 : Option Int).getD 10)
      = [marchRecord "C" 30 "toys", marchRecord "D" 40 "toys"] ∧
    ((∃ body : CombinedBody,
      (getCombinedData (some fiveRecords)
          (CombinedQuery.mk (some (monthName (2 : Fin 12))) none ((some 2 : Option Int).map some)
            ((some 2 : Option Int).map some))).response
        = Response.ok body ∧
      body.transactions
        = segment (recordsOfMonth (2 : Fin 12) fiveRecords)
            (((some 2 : Option Int).getD 1 - 1) * (some 2 : Option Int).getD 10)
            ((some 2 : Option Int).getD 1 * (some 2 : Option Int).getD 10)) ∧
    (∀ (remote : Option (List Transaction)) (month otherSearch : Option String)
        (pageNumber perPageNumber : Option (Option Int)),
      getCombinedData remote (CombinedQuery.mk month otherSearch pageNumber perPageNumber)
        = getCombinedData remote (CombinedQuery.mk month none pageNumber perPageNumber))) :=
  ⟨by decide, by decide, by decide,
    combined_page_segment fiveRecords 2 none (some 2) (some 2) (by decide) (by decide)⟩

/-! ## The worked example (C17) -/

/-- Counting records by a test on price and sold flag depends only on the prices
and sold flags present, not on their order. -/
theorem length_filter_of_perm (records : List Transaction) (pairs : List (ℚ × Bool))
    (hperm : (records.map (fun t => (t.price, t.sold))).Perm pairs) (q : ℚ × Bool → Bool) :
    (records.filter (fun t => q (t.price, t.sold))).length = (pairs.filter q).length := by
  have h := (hperm.filter q).length_eq
  simpa [List.filter_map, Function.comp_def] using h

/-- The prices of the sold records are, up to their order, the prices paired with
a sold flag. -/
theorem sold_prices_perm (records : List Transaction) (pairs : List (ℚ × Bool))
    (hperm : (records.map (fun t => (t.price, t.sold))).Perm pairs) :
    ((records.filter (fun t => t.sold)).map (fun t => t.price)).Perm
      ((pairs.filter (fun x => x.2)).map (fun x => x.1)) := by
  have h := (hperm.filter (fun x => x.2)).map (fun x => x.1)
  simpa [List.filter_map, Function.comp_def] using h

/-- C17 (counterexample): in the worked example the record priced 300 is counted in
the bucket "201 - 300" (300 is at most its upper bound), the bucket "301 - 400" has
count 0, and no bucket carries a label written without blanks such as "0-100". -/
theorem worked_example_bucket_of_300 :
    (getBarChart (some workedExample) (monthQuery "March")).response
      = Response.ok
          [ { range := "0 - 100", count := 1 }, { range := "101 - 200", count := 1 },
            { range := "201 - 300", count := 1 }, { range := "301 - 400", count := 0 },
            { range := "401 - 500", count := 0 }, { range := "501 - 600", count := 0 },
            { range := "601 - 700", count := 0 }, { range := "701 - 800", count := 0 },
            { range := "801 - 900", count := 0 }, { range := "901 - above", count := 1 } ] ∧
    (barChartRanges.map (fun r => r.range)).filter
        (fun label => label == "0-100" || label == "101-200" || label == "301-400" ||
          label == "901-above") = [] := by
  decide

/-- C17 (amended): for a month that holds exactly three sold records priced 50, 150
and 950 and one unsold record priced 300, `/statistics` answers totalSaleAmount 1150,
totalSoldItems 3 and totalNotSoldItems 1, and `/bar-chart` answers count 1 in the
buckets labelled "0 - 100", "101 - 200", "201 - 300" and "901 - above" and count 0
in the six other buckets. -/
theorem worked_example (dataset : List Transaction) (k : Fin 12)
    (search page per_page : Option String)
    (hmonth : ((recordsOfMonth k dataset).map (fun t => (t.price, t.sold))).Perm
      [(50, true), (150, true), (950, true), (300, false)]) :
    (getStatistics (some dataset) (Query.mk search page per_page (some (monthName k)))).response
      = Response.ok
          { month := monthName k, totalSaleAmount := 1150, totalSoldItems := 3,
            totalNotSoldItems := 1 } ∧
    (getBarChart (some dataset) (Query.mk search page per_page (some (monthName k)))).response
      = Response.ok
          [ { range := "0 - 100", count := 1 }, { range := "101 - 200", count := 1 },
            { range := "201 - 300", count := 1 }, { range := "301 - 400", count := 0 },
            { range := "401 - 500", count := 0 }, { range := "501 - 600", count := 0 },
            { range := "601 - 700", count := 0 }, { range := "701 - 800", count := 0 },
            { range := "801 - 900", count := 0 }, { range := "901 - above", count := 1 } ] := by
  have hsold := length_filter_of_perm _ _ hmonth (fun x => x.2)
  have hunsold := length_filter_of_perm _ _ hmonth (fun x => !x.2)
  have hprices := sold_prices_perm _ _ hmonth
  have hlist : (([(50, true), (150, true), (950, true), (300, false)] : List (ℚ × Bool)).filter
      (fun x => x.2)).map (fun x => x.1) = [50, 150, 950] := by
    simp
  rw [hlist] at hprices
  have hsum : addPrices (((recordsOfMonth k dataset).filter (fun t => t.sold)).map
      (fun t => t.price)) = 1150 := by
    have hwhole : ∀ x : ℚ, x ∈ ((recordsOfMonth k dataset).filter (fun t => t.sold)).map
        (fun t => t.price) → ∃ n : ℕ, x = (n : ℚ) := by
      intro x hx
      have hmem := hprices.mem_iff.mp hx
      simp only [List.mem_cons, List.mem_singleton, List.not_mem_nil, or_false] at hmem
      rcases hmem with rfl | rfl | rfl
      · exact ⟨50, by norm_num⟩
      · exact ⟨150, by norm_num⟩
      · exact ⟨950, by norm_num⟩
    have htotal : (((recordsOfMonth k dataset).filter (fun t => t.sold)).map
        (fun t => t.price)).sum = 1150 := by
      rw [hprices.sum_eq]
      norm_num
    rw [addPrices_whole _ hwhole (by rw [htotal]; norm_num), htotal]
    show JsNumber.finite (1150 : ℚ) = JsNumber.finite ((1150 : ℕ) : ℚ)
    norm_num
  have hcount : ∀ r : PriceRange,
      ((recordsOfMonth k dataset).filter (inRange r)).length
        = (([(50, true), (150, true), (950, true), (300, false)] : List (ℚ × Bool)).filter
            (fun x => decide (x.1 ≥ r.min) && lessEqMax x.1 r.max)).length :=
    fun r => length_filter_of_perm _ _ hmonth
      (fun x => decide (x.1 ≥ r.min) && lessEqMax x.1 r.max)
  constructor
  · rw [getStatistics_valid]
    simp only [hsold, hunsold, hsum]
    rfl
  · rw [getBarChart_valid]
    simp only [countByRange, hcount]
    decide

/-- Witness of C17 (amended): the dataset `workedExample`, queried for March. -/
theorem worked_example_witness :
    ((recordsOfMonth (2 : Fin 12) workedExample).map (fun t => (t.price, t.sold))).Perm
      [(50, true), (150, true), (950, true), (300, false)] ∧
    (getStatistics (some workedExample)
        (Query.mk none none none (some (monthName (2 : Fin 12))))).response
      = Response.ok
          { month := monthName (2 : Fin 12), totalSaleAmount := 1150, totalSoldItems := 3,
            totalNotSoldItems := 1 } ∧
    (getBarChart (some workedExample)
        (Query.mk none none none (some (monthName (2 : Fin 12))))).response
      = Response.ok
          [ { range := "0 - 100", count := 1 }, { range := "101 - 200", count := 1 },
            { range := "201 - 300", count := 1 }, { range := "301 - 400", count := 0 },
            { range := "401 - 500", count := 0 }, { range := "501 - 600", count := 0 },
            { range := "601 - 700", count := 0 }, { range := "701 - 800", count := 0 },
            { range := "801 - 900", count := 0 }, { range := "901 - above", count := 1 } ] :=
  have hmonth : ((recordsOfMonth (2 : Fin 12) workedExample).map
      (fun t => (t.price, t.sold))).Perm [(50, true), (150, true), (950, true), (300, false)] := by
    have hlist : (recordsOfMonth (2 : Fin 12) workedExample).map (fun t => (t.price, t.sold))
        = [(50, true), (150, true), (300, false), (950, true)] := by decide
    rw [hlist]
    exact (List.Perm.swap _ _ _).cons _ |>.cons _
  ⟨hmonth, worked_example workedExample 2 none none none hmonth⟩

/-! ## The pages partition the filtered list (C18) -/

/-- The character of a decimal digit is a digit, no white space and no sign, and
`parseInt` reads its value back. -/
theorem digit_char (d : Nat) (hd : d < 10) :
    (Char.ofNat (48 + d)).toNat - 48 = d ∧ (Char.ofNat (48 + d)).isDigit = true ∧
    isStrWhiteSpace (Char.ofNat (48 + d)) = false ∧
    Char.ofNat (48 + d) ≠ '-' ∧ Char.ofNat (48 + d) ≠ '+' := by
  have hall : ∀ e : Fin 10,
      (Char.ofNat (48 + e.val)).toNat - 48 = e.val ∧ (Char.ofNat (48 + e.val)).isDigit = true ∧
      isStrWhiteSpace (Char.ofNat (48 + e.val)) = false ∧
      Char.ofNat (48 + e.val) ≠ '-' ∧ Char.ofNat (48 + e.val) ≠ '+' := by decide
  exact hall ⟨d, hd⟩

/-- With enough fuel `digitsAux` puts in front of `acc` a non-empty run of digit
characters whose decimal value is `n`. -/
theorem digitsAux_spec (fuel n : Nat) (acc : List Char) (hfuel : n < fuel) :
    ∃ ds : List Char, digitsAux fuel n acc = ds ++ acc ∧ ds ≠ [] ∧
      (∀ c ∈ ds, c.isDigit = true ∧ isStrWhiteSpace c = false ∧ c ≠ '-' ∧ c ≠ '+') ∧
      ∀ init : Nat,
        ds.foldl (fun a c => 10 * a + (c.toNat - 48)) init = init * 10 ^ ds.length + n := by
  induction fuel generalizing n acc with
  | zero => omega
  | succ fuel ih =>
    obtain ⟨hval, hdigit, hspace, hminus, hplus⟩ := digit_char (n % 10) (Nat.mod_lt _ (by omega))
    by_cases hsmall : n / 10 = 0
    · refine ⟨[Char.ofNat (48 + n % 10)], ?_, by simp, ?_, ?_⟩
      · simp [digitsAux, hsmall]
      · intro c hc
        rw [List.mem_singleton.mp hc]
        exact ⟨hdigit, hspace, hminus, hplus⟩
      · intro init
        simp only [List.foldl_cons, List.foldl_nil, hval, List.length_singleton, pow_one]
        omega
    · obtain ⟨ds, hds, _, hchars, hfold⟩ :=
        ih (n / 10) (Char.ofNat (48 + n % 10) :: acc) (by omega)
      refine ⟨ds ++ [Char.ofNat (48 + n % 10)], ?_, by simp, ?_, ?_⟩
      · simp [digitsAux, hsmall, hds]
      · intro c hc
        rcases List.mem_append.mp hc with hc | hc
        · exact hchars c hc
        · rw [List.mem_singleton.mp hc]
          exact ⟨hdigit, hspace, hminus, hplus⟩
      · intro init
        simp only [List.foldl_append, List.foldl_cons, List.foldl_nil, hfold, hval,
          List.length_append, List.length_singleton, pow_succ]
        have hn := Nat.div_add_mod n 10
        nlinarith [hn]

/-- `parseInt` reads a natural number back from its decimal form. -/
theorem readInteger_natToString (n : Nat) : readInteger (natToString n) = some (n : Int) := by
  obtain ⟨ds, hds, hne, hchars, hfold⟩ := digitsAux_spec (n + 1) n [] (by omega)
  rw [List.append_nil] at hds
  obtain ⟨c, rest, rfl⟩ := List.exists_cons_of_ne_nil hne
  obtain ⟨_, hspace, hminus, hplus⟩ := hchars c (List.mem_cons_self _ _)
  have hall : (c :: rest).takeWhile Char.isDigit = c :: rest := by
    rw [List.takeWhile_eq_self_iff]
    intro x hx
    exact (hchars x hx).1
  have hvalue := hfold 0
  simp only [Nat.zero_mul, Nat.zero_add] at hvalue
  have hsigned : (match c :: rest with
      | '-' :: r => (true, r)
      | '+' :: r => (false, r)
      | r => (false, r) : Bool × List Char) = (false, c :: rest) := by
    split
    · rename_i heq
      exact absurd (List.cons.inj heq).1 hminus
    · rename_i heq
      exact absurd (List.cons.inj heq).1 hplus
    · rfl
  unfold readInteger natToString
  simp only [hds, List.dropWhile_cons, hspace, Bool.false_eq_true, if_false, hsigned, hall,
    hvalue, List.isEmpty_cons]

/-- Consecutive runs of `n` elements put end to end give back the start of the list. -/
theorem flatten_runs {α : Type} (xs : List α) (n m : Nat) :
    ((List.range m).map (fun i => (xs.drop (i * n)).take n)).flatten = xs.take (m * n) := by
  induction m with
  | zero => simp
  | succ m ih =>
    rw [List.range_succ, List.map_append, List.flatten_append, ih]
    simp only [List.map_cons, List.map_nil, List.flatten_cons, List.flatten_nil,
      List.append_nil]
    rw [Nat.succ_mul, List.take_add]

/-- The pages needed for `total` records hold at least `total` places. -/
theorem le_pageCount_mul (total per_page : Nat) (hper : 1 ≤ per_page) :
    total ≤ pageCount total per_page * per_page := by
  unfold pageCount
  have hdiv := Nat.div_add_mod (total + per_page - 1) per_page
  have hmod := Nat.mod_lt (total + per_page - 1) (by omega : per_page > 0)
  rw [Nat.mul_comm] at hdiv
  generalize (total + per_page - 1) / per_page * per_page = q at hdiv ⊢
  omega

/-- The pages needed for `total` records are at most `total`. -/
theorem pageCount_le (total per_page : Nat) (hper : 1 ≤ per_page) :
    pageCount total per_page ≤ total := by
  unfold pageCount
  have hmul : total ≤ total * per_page := Nat.le_mul_of_pos_right total (by omega)
  have hlt : total + per_page - 1 < (total + 1) * per_page := by
    rw [Nat.add_mul, Nat.one_mul]
    omega
  have hdiv := (Nat.div_lt_iff_lt_mul (by omega : 0 < per_page)).mpr hlt
  omega

/-- A natural number below the overflow threshold is read as a finite number: as
itself up to `2^53`, and beyond as a number that is still at least `2^53`. -/
theorem roundInteger_natCast (n : Nat) (hn : n < overflowThreshold) :
    ∃ m : Nat, roundInteger (n : Int) = JsInteger.finite (m : Int) ∧
      ((n ≤ 2 ^ 53 ∧ m = n) ∨ (2 ^ 53 < n ∧ 2 ^ 53 ≤ m)) := by
  by_cases hsmall : n ≤ 2 ^ 53
  · exact ⟨n, roundInteger_of_natAbs_le (n : Int) (by omega), Or.inl ⟨hsmall, rfl⟩⟩
  · have hnonneg : ¬ (n : Int) < 0 := by omega
    have hround : roundMagnitude n
        = some (divRoundEven n (1 <<< (bitLength n - 53)) <<< (bitLength n - 53)) := by
      unfold roundMagnitude
      rw [if_neg hsmall, if_neg (by omega)]
    have hge := roundMagnitude_ge n _ (by omega) hround
    refine ⟨_, ?_, Or.inr ⟨by omega, hge⟩⟩
    simp only [roundInteger, Int.natAbs_ofNat, hround, hnonneg, if_false]

/-- The slice that `/transactions` answers to the request for page `p`, `n` records
to a page, both written in decimal and at least 1, `p` a number that is a double
and `n` a number that is read as finite. -/
theorem transactionsOf_pageQuery (dataset : List Transaction) (search : Option String)
    (p n : Nat) (hp : 1 ≤ p) (hpsmall : p ≤ 2 ^ 53) (hn : 1 ≤ n) (hfinite : n < overflowThreshold)
    (hlen : dataset.length < 2 ^ 32) :
    transactionsOf (getTransactions (some dataset) (pageQuery search p n)).response
      = ((dataset.filter (matchesSearch (search.getD ""))).drop ((p - 1) * n)).take n := by
  have hfiltered : (dataset.filter (matchesSearch (search.getD ""))).length < 2 ^ 32 :=
    Nat.lt_of_le_of_lt (List.length_filter_le _ _) hlen
  obtain ⟨m, hround, hm⟩ := roundInteger_natCast n hfinite
  have hpage : currentPageOf (pageQuery search p n) = JsInteger.finite (p : Int) := by
    have hne : (p : Int) ≠ 0 := by omega
    simp only [currentPageOf, pageQuery, Option.getD_some, parseInt, readInteger_natToString,
      orDefault_roundInteger _ hne]
    exact roundInteger_of_natAbs_le (p : Int) (by omega)
  have hper : perPageOf (pageQuery search p n) = JsInteger.finite (m : Int) := by
    have hne : (n : Int) ≠ 0 := by omega
    simp only [perPageOf, pageQuery, Option.getD_some, parseInt, readInteger_natToString]
    rw [orDefault_roundInteger _ hne, hround]
  have hm1 : 1 ≤ (m : Int) := by
    rcases hm with ⟨_, rfl⟩ | ⟨_, hbig⟩ <;> omega
  have hslice := sliceNumbers_page (dataset.filter (matchesSearch (search.getD "")))
    (p : Int) (m : Int) (by omega) hm1 hfiltered
  have hoffset : ((p : Int) - 1) * (m : Int) = (((p - 1) * m : Nat) : Int) := by
    rw [Nat.cast_mul, Nat.cast_sub hp]
    simp
  show sliceNumbers (dataset.filter (matchesSearch (search.getD "")))
      (integerMul (integerSub (currentPageOf (pageQuery search p n)) 1)
        (perPageOf (pageQuery search p n)))
      (integerAdd (integerMul (integerSub (currentPageOf (pageQuery search p n)) 1)
        (perPageOf (pageQuery search p n))) (perPageOf (pageQuery search p n))) = _
  rw [hpage, hper, hslice, hoffset]
  simp only [Int.toNat_ofNat, pageQuery]
  show List.take m (List.drop ((p - 1) * m) (dataset.filter (matchesSearch (search.getD ""))))
    = List.take n (List.drop ((p - 1) * n) (dataset.filter (matchesSearch (search.getD ""))))
  rcases hm with ⟨_, rfl⟩ | ⟨hnbig, hmbig⟩
  · rfl
  · rcases Nat.eq_or_lt_of_le hp with hone | htwo
    · rw [← hone]
      simp only [Nat.sub_self, Nat.zero_mul, List.drop_zero]
      rw [List.take_of_length_le (by omega), List.take_of_length_le (by omega)]
    · have hleft : (dataset.filter (matchesSearch (search.getD ""))).length ≤ (p - 1) * m := by
        have : m ≤ (p - 1) * m := Nat.le_mul_of_pos_left m (by omega)
        omega
      have hright : (dataset.filter (matchesSearch (search.getD ""))).length ≤ (p - 1) * n := by
        have : n ≤ (p - 1) * n := Nat.le_mul_of_pos_left n (by omega)
        omega
      rw [List.drop_eq_nil_of_le hleft, List.drop_eq_nil_of_le hright]
      simp

set_option maxRecDepth 100000 in
/-- C18 (counterexample): with a `per_page` of `10^309` the five records fill one
page, but `per_page` is read as `Infinity`, the start index `(1 - 1) * Infinity` is
`NaN`, and page 1 holds no record: the pages do not give back the filtered list. -/
theorem pages_lost_when_per_page_infinite :
    hugeNumeral = natToString ((10 ^ 103) ^ 3) ∧
    pageCount (fiveRecords.filter (matchesSearch "")).length ((10 ^ 103) ^ 3) = 1 ∧
    ((List.range (pageCount (fiveRecords.filter (matchesSearch "")).length ((10 ^ 103) ^ 3))).map
      (fun i => transactionsOf
        (getTransactions (some fiveRecords)
          (pageQuery none (i + 1) ((10 ^ 103) ^ 3))).response)).flatten = [] ∧
    fiveRecords.filter (matchesSearch "") = fiveRecords := by
  decide

/-- C18 (amended): for every dataset, search text and per_page of at least 1 that is
read as a finite number (a per_page below `2^1024 - 2^970`), the slices that
`/transactions` answers for the pages 1, 2, ..., ceil(total / per_page), put end
to end in this order, are exactly the filtered list: every matching record is on
exactly one page, none is skipped and none repeated.  (The dataset is an array,
which holds fewer than `2^32` records.) -/
theorem pages_partition (dataset : List Transaction) (search : Option String) (perPage : Nat)
    (hper : 1 ≤ perPage) (hfinite : perPage < overflowThreshold)
    (hlen : dataset.length < 2 ^ 32) :
    ((List.range
        (pageCount (dataset.filter (matchesSearch (search.getD ""))).length perPage)).map
      (fun i => transactionsOf
        (getTransactions (some dataset) (pageQuery search (i + 1) perPage)).response)).flatten
      = dataset.filter (matchesSearch (search.getD "")) := by
  have hfiltered : (dataset.filter (matchesSearch (search.getD ""))).length < 2 ^ 32 :=
    Nat.lt_of_le_of_lt (List.length_filter_le _ _) hlen
  have hcount := pageCount_le (dataset.filter (matchesSearch (search.getD ""))).length perPage hper
  have hpages : ∀ i ∈ List.range
      (pageCount (dataset.filter (matchesSearch (search.getD ""))).length perPage),
      transactionsOf (getTransactions (some dataset) (pageQuery search (i + 1) perPage)).response
        = ((dataset.filter (matchesSearch (search.getD ""))).drop (i * perPage)).take perPage := by
    intro i hi
    have hi' := List.mem_range.mp hi
    rw [transactionsOf_pageQuery dataset search (i + 1) perPage (by omega) (by omega) hper
      hfinite hlen]
    simp
  rw [List.map_congr_left hpages, flatten_runs,
    List.take_of_length_le (le_pageCount_mul _ _ hper)]

/-- Witness of C18 (amended): the five records, two to a page, fill three pages. -/
theorem pages_partition_witness :
    1 ≤ 2 ∧ 2 < overflowThreshold ∧ fiveRecords.length < 2 ^ 32 ∧
    pageCount (fiveRecords.filter (matchesSearch ((none : Option String).getD ""))).length 2 = 3 ∧
    ((List.range
        (pageCount (fiveRecords.filter (matchesSearch ((none : Option String).getD ""))).length 2)).map
      (fun i => transactionsOf
        (getTransactions (some fiveRecords) (pageQuery none (i + 1) 2)).response)).flatten
      = fiveRecords.filter (matchesSearch ((none : Option String).getD "")) :=
  ⟨by decide, by decide, by decide, by decide,
    pages_partition fiveRecords none 2 (by decide) (by decide) (by decide)⟩

/-! ## The number of records on a page (C20) -/

set_option maxRecDepth 100000 in
/-- C20 (counterexample): page 1 with a `per_page` of `10^309`, which is read as
`Infinity`: the response holds no record out of a total of 5, although
`(page - 1) * per_page` is not at least the total and 5 is the least of per_page
and the records left. -/
theorem page_empty_when_per_page_infinite :
    (getTransactions (some fiveRecords) (Query.mk none (some "1") (some hugeNumeral) none)).response
      = Response.ok
          { page := 1, per_page := JsInteger.posInf, total := 5, transactions := [] } ∧
    readInteger hugeNumeral = some ((10 ^ 103) ^ 3 : Nat) ∧
    min ((10 ^ 103) ^ 3 : Int) (max 0 (5 - (1 - 1) * (10 ^ 103) ^ 3)) = 5 := by
  decide

/-- C20 (amended): for every dataset, search text and query whose page and per_page,
once coerced, are finite numbers of at least 1, the number of records
`/transactions` returns is `min(per_page, max(0, total - (page - 1) * per_page))`,
where total is the number of filtered records; it exceeds neither per_page nor
total, and it is 0 exactly when `(page - 1) * per_page >= total`.  (The dataset is
an array, which holds fewer than `2^32` records.) -/
theorem page_length (dataset : List Transaction) (query : Query) (p q : Int)
    (hpage : currentPageOf query = JsInteger.finite p)
    (hper : perPageOf query = JsInteger.finite q)
    (hp : 1 ≤ p) (hq : 1 ≤ q) (hlen : dataset.length < 2 ^ 32) :
    ∃ body : TransactionsBody,
      (getTransactions (some dataset) query).response = Response.ok body ∧
      body.page = JsInteger.finite p ∧
      body.per_page = JsInteger.finite q ∧
      body.total = (dataset.filter (matchesSearch (query.search.getD ""))).length ∧
      (body.transactions.length : Int) = min q (max 0 ((body.total : Int) - (p - 1) * q)) ∧
      (body.transactions.length : Int) ≤ q ∧
      body.transactions.length ≤ body.total ∧
      (body.transactions.length = 0 ↔ (body.total : Int) ≤ (p - 1) * q) := by
  have hfiltered : (dataset.filter (matchesSearch (query.search.getD ""))).length < 2 ^ 32 :=
    Nat.lt_of_le_of_lt (List.length_filter_le _ _) hlen
  have hoffset : 0 ≤ (p - 1) * q := mul_nonneg (by omega) (by omega)
  have hslice := sliceNumbers_page (dataset.filter (matchesSearch (query.search.getD "")))
    p q hp hq hfiltered
  have hlength : (sliceNumbers (dataset.filter (matchesSearch (query.search.getD "")))
      (integerMul (integerSub (currentPageOf query) 1) (perPageOf query))
      (integerAdd (integerMul (integerSub (currentPageOf query) 1) (perPageOf query))
        (perPageOf query))).length
      = min q.toNat
          ((dataset.filter (matchesSearch (query.search.getD ""))).length
            - ((p - 1) * q).toNat) := by
    rw [hpage, hper, hslice, List.length_take, List.length_drop]
  refine ⟨_, rfl, hpage, hper, rfl, ?_, ?_, ?_, ?_⟩ <;>
    simp only [hlength] <;>
    generalize (p - 1) * q = offset at hoffset ⊢ <;>
    omega

/-- Witness of C20 (amended): page 3 of the five records, two to a page, holds one record. -/
theorem page_length_witness :
    currentPageOf (pageQuery none 3 2) = JsInteger.finite 3 ∧
    perPageOf (pageQuery none 3 2) = JsInteger.finite 2 ∧
    ∃ body : TransactionsBody,
      (getTransactions (some fiveRecords) (pageQuery none 3 2)).response = Response.ok body ∧
      body.page = JsInteger.finite 3 ∧
      body.per_page = JsInteger.finite 2 ∧
      body.total = (fiveRecords.filter
        (matchesSearch ((pageQuery none 3 2).search.getD ""))).length ∧
      (body.transactions.length : Int) = min 2 (max 0 ((body.total : Int) - (3 - 1) * 2)) ∧
      (body.transactions.length : Int) ≤ 2 ∧
      body.transactions.length ≤ body.total ∧
      (body.transactions.length = 0 ↔ (body.total : Int) ≤ (3 - 1) * 2) :=
  ⟨by decide, by decide,
    page_length fiveRecords (pageQuery none 3 2) 3 2 (by decide) (by decide) (by decide)
      (by decide) (by decide)⟩

/-! ## Buckets of the bar chart (C19) -/

/-- A test that no two elements of a list pass together is passed by one element at most. -/
theorem length_filter_le_one {α : Type} (p : α → Bool) (l : List α)
    (h : l.Pairwise (fun a b => ¬ (p a = true ∧ p b = true))) : (l.filter p).length ≤ 1 := by
  induction l with
  | nil => simp
  | cons a rest ih =>
    rw [List.pairwise_cons] at h
    cases hp : p a
    · simpa [List.filter_cons, hp] using ih h.2
    · have hnone : rest.filter p = [] := by
        rw [List.filter_eq_nil_iff]
        intro b hb hpb
        exact h.1 b hb ⟨hp, hpb⟩
      simp [List.filter_cons, hp, hnone]

/-- No price lies in two of the ten ranges. -/
theorem ranges_disjoint (t : Transaction) :
    barChartRanges.Pairwise (fun a b => ¬ (inRange a t = true ∧ inRange b t = true)) := by
  simp only [barChartRanges, List.pairwise_cons, List.mem_cons, List.mem_singleton,
    List.not_mem_nil, forall_eq_or_imp, forall_eq, inRange, lessEqMax, Bool.and_eq_true,
    decide_eq_true_eq, ge_iff_le, List.Pairwise.nil, and_true, IsEmpty.forall_iff, implies_true]
  refine ⟨⟨?_, ?_, ?_, ?_, ?_, ?_, ?_, ?_, ?_⟩, ⟨?_, ?_, ?_, ?_, ?_, ?_, ?_, ?_⟩, ⟨?_, ?_, ?_, ?_, ?_, ?_, ?_⟩, ⟨?_, ?_, ?_, ?_, ?_, ?_⟩, ⟨?_, ?_, ?_, ?_, ?_⟩, ⟨?_, ?_, ?_, ?_⟩, ⟨?_, ?_, ?_⟩, ⟨?_, ?_⟩, ?_⟩ <;>
    (intro h; have hupper := h.1.2; first | linarith [h.2.1] | linarith [h.2])

/-- A sum of numbers that are at most 1 is at most the number of summands. -/
theorem sum_le_length_of_le_one {α : Type} (f : α → Nat) (xs : List α) (hf : ∀ x, f x ≤ 1) :
    (xs.map f).sum ≤ xs.length := by
  induction xs with
  | nil => simp
  | cons x rest ih =>
    have hx := hf x
    simp only [List.map_cons, List.sum_cons, List.length_cons]
    omega

/-- A whole price `n` lies in the range of index `i` exactly when `i` is its bucket index. -/
theorem whole_price_bucket (t : Transaction) (n : ℕ) (hn : t.price = n) (i : Nat)
    (hi : i < barChartRanges.length) :
    inRange (barChartRanges.get ⟨i, hi⟩) t = true ↔ i = bucketIndex n := by
  have hten : i < 10 := hi
  interval_cases i <;>
    simp only [barChartRanges, List.get_eq_getElem, List.getElem_cons_zero,
      List.getElem_cons_succ, inRange, lessEqMax, hn, ge_iff_le, Bool.and_eq_true,
      decide_eq_true_eq, Nat.ofNat_le_cast, Nat.cast_le_ofNat, Nat.cast_nonneg, Nat.cast_ofNat,
      and_true, true_and, bucketIndex] <;>
    split_ifs <;> constructor <;> intro h <;> first | omega | cases h

/-- The five border records have whole prices. -/
theorem borderRecords_whole :
    ∀ t ∈ recordsOfMonth (2 : Fin 12) borderRecords, ∃ n : ℕ, t.price = n := by
  have hrecords : recordsOfMonth (2 : Fin 12) borderRecords = borderRecords := by decide
  intro t ht
  rw [hrecords] at ht
  simp only [borderRecords, List.mem_cons, List.mem_singleton, List.not_mem_nil,
    or_false] at ht
  rcases ht with rfl | rfl | rfl | rfl | rfl
  · exact ⟨0, by simp [marchRecord]⟩
  · exact ⟨100, by simp [marchRecord]⟩
  · exact ⟨101, by simp [marchRecord]⟩
  · exact ⟨900, by simp [marchRecord]⟩
  · exact ⟨901, by simp [marchRecord]⟩

/-- C19: in the bar chart of `/bar-chart` and of `/combined-data`, no record is counted
in two buckets, whatever its price, so the ten counts add up to at most the number
of records of the month; a record whose price is a whole number `n`, zero or more,
is counted in the bucket of index 0 if `n ≤ 100` and of index
`min(9, floor((n - 1) / 100))` otherwise, and in no other, so that the counts add
up to the number of records of the month when every price is such a number. -/
theorem bar_chart_bucket_of_price (dataset : List Transaction) (k : Fin 12)
    (search page per_page : Option String) (pageNumber perPageNumber : Option (Option Int)) :
    ∃ (bars : List BarEntry) (combined : CombinedBody),
      (getBarChart (some dataset) (Query.mk search page per_page (some (monthName k)))).response
        = Response.ok bars ∧
      (getCombinedData (some dataset)
          (CombinedQuery.mk (some (monthName k)) search pageNumber perPageNumber)).response
        = Response.ok combined ∧
      combined.barChartData = bars ∧
      (∀ t : Transaction, (barChartRanges.filter (fun r => inRange r t)).length ≤ 1) ∧
      barTotal bars ≤ (recordsOfMonth k dataset).length ∧
      (∀ (t : Transaction) (n : ℕ), t.price = n →
        ∀ (i : Nat) (hi : i < barChartRanges.length),
          (inRange (barChartRanges.get ⟨i, hi⟩) t = true ↔ i = bucketIndex n)) ∧
      ((∀ t ∈ recordsOfMonth k dataset, ∃ n : ℕ, t.price = n) →
        barTotal bars = (recordsOfMonth k dataset).length) := by
  have hmost : ∀ t : Transaction, (barChartRanges.filter (fun r => inRange r t)).length ≤ 1 :=
    fun t => length_filter_le_one _ _ (ranges_disjoint t)
  rw [getBarChart_valid, getCombinedData_valid]
  refine ⟨_, _, rfl, rfl, rfl, hmost, ?_, ?_, ?_⟩
  · rw [barTotal_countByRange]
    exact sum_le_length_of_le_one _ _ hmost
  · intro t n hn i hi
    exact whole_price_bucket t n hn i hi
  · intro hwhole
    have hone : ∀ t ∈ recordsOfMonth k dataset,
        (barChartRanges.filter (fun r => inRange r t)).length = 1 := by
      intro t ht
      obtain ⟨n, hn⟩ := hwhole t ht
      exact whole_price_in_one_range t n hn
    rw [barTotal_countByRange, List.map_congr_left hone]
    simp

/-- Witness of C19: the five March records priced 0, 100, 101, 900 and 901 fall in
the buckets of index 0, 0, 1, 8 and 9, and the ten counts add up to 5. -/
theorem bar_chart_bucket_of_price_witness :
    (∀ t ∈ recordsOfMonth (2 : Fin 12) borderRecords, ∃ n : ℕ, t.price = n) ∧
    bucketIndex 0 = 0 ∧ bucketIndex 100 = 0 ∧ bucketIndex 101 = 1 ∧ bucketIndex 900 = 8 ∧
    bucketIndex 901 = 9 ∧
    ∃ bars : List BarEntry,
      (getBarChart (some borderRecords)
          (Query.mk none none none (some (monthName (2 : Fin 12))))).response
        = Response.ok bars ∧
      barTotal bars = (recordsOfMonth (2 : Fin 12) borderRecords).length := by
  obtain ⟨bars, _, hbars, _, _, _, _, _, hsum⟩ :=
    bar_chart_bucket_of_price borderRecords 2 none none none none none
  exact ⟨borderRecords_whole, by decide, by decide, by decide, by decide, by decide,
    bars, hbars, hsum borderRecords_whole⟩

end Roxiler
